import Mathlib

/-!
Verification of the glib-1.2 main loop core (src/glib/gmain.c).

The C code is shallowly embedded as follows.

* A time value (struct GTimeVal / struct timeval) is a pair of mathematical
  integers.  The spec states that integer overflow in the seconds field is
  ignored; all concrete claims stay far below machine-integer bounds, so
  glong/gint arithmetic is embedded as arithmetic on Int.  C integer division
  (truncation toward zero) is written Int.tdiv.
* A source (GSource, a GHook on the source list) is a record of its hook id,
  priority, the flag bits IN_CALL, CAN_RECURSE and READY, and its callback
  table.  The callback-table field is a type parameter F: g_source_add and
  g_source_remove never inspect it (faithful to the C, which stores the
  GSourceFuncs pointer without validation), while the dispatch engine
  instantiates F with SourceFuncs.
* Callbacks are embedded as pure functions of the current time (the
  source-private datum is folded into the closure).  Mutation of the
  source-private datum and reentry into the loop from inside a dispatch
  callback are outside this model; the timeout re-arm mutation is verified
  directly on g_timeout_dispatch.
* The registry is the list of valid hooks in list order; destroying a hook is
  removal from the list (g_hook_destroy_link clears IN_CALL first in
  g_main_dispatch, so the unlink is immediate there), and the C check
  G_HOOK_IS_VALID is membership of the hook id in the registry.
* g_main_iterate is instrumented to also return the list of callback events
  (prepare calls, check calls, dispatches) it performs, in order.
-/

/-- GTimeVal: seconds and microseconds, as in gmain.c / sys/time.h. -/
structure GTimeVal where
  tv_sec : Int
  tv_usec : Int
deriving Repr, DecidableEq

/-- The value of a time as a number of microseconds. -/
def GTimeVal.toMicros (t : GTimeVal) : Int :=
  t.tv_sec * 1000000 + t.tv_usec

/-- GSourceFuncs: the prepare/check/dispatch callback table of a source, with
the source-private datum and the user datum folded into the closures.
prepare takes the current contents of the caller's gint timeout slot (that
variable is uninitialized in g_main_iterate) and returns (ready, new slot
contents); check returns ready; dispatch returns the keep/remove boolean.
The destroy member is not part of this record; destroy invocations are
tracked in the main-loop state instead. -/
structure SourceFuncs where
  prepare : GTimeVal → Int → Bool × Int
  check : GTimeVal → Bool
  dispatch : GTimeVal → Bool

/-- GSource: one entry of the source list.  hook_id is the identity tag,
and the three modelled flag bits of hook.flags are inCall (G_HOOK_FLAG_IN_CALL),
canRecurse (G_SOURCE_CAN_RECURSE) and ready (G_SOURCE_READY).  The funcs
field holds the callback-table pointer; it is a type parameter because the
registry operations never look inside it. -/
structure Source (F : Type) where
  id : Nat
  priority : Int
  inCall : Bool
  canRecurse : Bool
  ready : Bool
  funcs : F

/-- The global state of gmain.c: the source registry (source_list, valid
hooks in list order), the pending-dispatch queue (pending_dispatches, most
recently prepended first, each entry the selected source), the poll_waiting
flag, a count of bytes ever written to the wake-up pipe's write end, the
next hook id (the hook list's seq_id, starting at 1), and the ids on which
the remove operations have invoked the source's destroy hook. -/
structure MainState (F : Type) where
  sources : List (Source F)
  pending : List (Source F)
  pollWaiting : Bool
  wakeupWrites : Nat
  nextId : Nat
  destroyed : List Nat

/-- The initial global state: empty source list, NULL pending_dispatches,
poll_waiting FALSE, hook seq_id 1. -/
def mainStateEmpty (F : Type) : MainState F :=
  ⟨[], [], false, 0, 1, []⟩

/-- g_source_compare (gmain.c lines 215-222): -1 when the first priority is
numerically smaller, else 1 (never 0, so sorted insertion lands after all
equal-priority entries). -/
def g_source_compare (a b : Source F) : Int :=
  if a.priority < b.priority then -1 else 1

/-- Modelled from the spec: g_hook_insert_sorted belongs to the hook-list
container, which is not under src/ (spec section 1 lists it as an external
collaborator and section 3 gives the tie-break: the new source goes after
all existing sources of equal priority).  The container inserts the new
hook before the first existing hook whose comparison with it is at most 0;
combined with g_source_compare (from the source) this places the new source
after every source of smaller or equal priority. -/
def g_hook_insert_sorted (l : List (Source F)) (s : Source F) : List (Source F) :=
  match l with
  | [] => [s]
  | x :: xs =>
    if g_source_compare s x ≤ 0 then s :: x :: xs else x :: g_hook_insert_sorted xs s

/-- g_source_add (gmain.c lines 224-267): allocate a source carrying the
given priority and callback table, insert it sorted, set CAN_RECURSE if
requested, and if the loop is blocked in poll (poll_waiting) clear the flag
and write one byte to the wake-up pipe.  Returns the new state and the
fresh hook id. -/
def g_source_add (priority : Int) (can_recurse : Bool) (funcs : F)
    (s : MainState F) : MainState F × Nat :=
  let src : Source F :=
    ⟨s.nextId, priority, false, can_recurse, false, funcs⟩
  let sources := g_hook_insert_sorted s.sources src
  if s.pollWaiting then
    (⟨sources, s.pending, false, s.wakeupWrites + 1, s.nextId + 1, s.destroyed⟩, s.nextId)
  else
    (⟨sources, s.pending, s.pollWaiting, s.wakeupWrites, s.nextId + 1, s.destroyed⟩, s.nextId)

/-- g_source_remove (gmain.c lines 269-285).  The lookup g_hook_get is part
of the hook-list container (not under src/); modelled from the spec, it
finds the hook whose id equals the tag, and ids are assigned from a
sequence starting at 1.  When a hook is found, the source's destroy hook is
invoked on its private datum (recorded in the destroyed log) and the hook
is destroyed; otherwise nothing changes. -/
def g_source_remove (tag : Nat) (s : MainState F) : MainState F :=
  match s.sources.find? (fun x => x.id == tag) with
  | none => s
  | some src =>
    ⟨s.sources.eraseP (fun x => x.id == tag), s.pending, s.pollWaiting,
      s.wakeupWrites, s.nextId, s.destroyed ++ [src.id]⟩

/-! ## Timeouts (gmain.c lines 727-807) -/

/-- GTimeoutData: absolute expiration time and interval in milliseconds.
The user callback is not stored here; dispatch takes its boolean result as
a parameter. -/
structure GTimeoutData where
  expiration : GTimeVal
  interval : Int
deriving Repr, DecidableEq

/-- g_timeout_prepare (gmain.c lines 729-743): msec is the signed distance
to the expiration in milliseconds (C integer division truncates toward
zero); the caller's timeout slot receives 0 if msec is nonpositive and msec
otherwise, and the result says whether msec is nonpositive. -/
def g_timeout_prepare (data : GTimeoutData) (current_time : GTimeVal) : Bool × Int :=
  let msec := (data.expiration.tv_sec - current_time.tv_sec) * 1000 +
    Int.tdiv (data.expiration.tv_usec - current_time.tv_usec) 1000
  (decide (msec ≤ 0), if msec ≤ 0 then 0 else msec)

/-- g_timeout_check (gmain.c lines 745-754): seconds first, then
microseconds. -/
def g_timeout_check (data : GTimeoutData) (current_time : GTimeVal) : Bool :=
  decide (data.expiration.tv_sec < current_time.tv_sec ∨
    (data.expiration.tv_sec = current_time.tv_sec ∧
      data.expiration.tv_usec ≤ current_time.tv_usec))

/-- The expiration computation shared (verbatim) by g_timeout_dispatch and
g_timeout_add_full: add interval milliseconds to the microsecond field and
perform one conditional carry into the seconds field. -/
def timeoutExpiration (current : GTimeVal) (interval : Int) : GTimeVal :=
  let usec := current.tv_usec + interval * 1000
  if usec ≥ 1000000 then ⟨current.tv_sec + 1, usec - 1000000⟩
  else ⟨current.tv_sec, usec⟩

/-- g_timeout_dispatch (gmain.c lines 756-776): callbackResult is what the
user callback returned; on true the expiration is re-armed to current plus
interval and the source is kept, on false the source is removed. -/
def g_timeout_dispatch (data : GTimeoutData) (current_time : GTimeVal)
    (callbackResult : Bool) : GTimeoutData × Bool :=
  if callbackResult then
    (⟨timeoutExpiration current_time data.interval, data.interval⟩, true)
  else
    (data, false)

/-- The GTimeoutData built by g_timeout_add_full (gmain.c lines 785-796):
expiration is the current time plus the interval, with the same single
conditional carry as the dispatch re-arm. -/
def g_timeout_data_new (now : GTimeVal) (interval : Int) : GTimeoutData :=
  ⟨timeoutExpiration now interval, interval⟩

/-- The timeout_funcs callback table for a given timeout datum, with the
user callback's (pure) result supplied as cb. -/
def timeoutFuncs (data : GTimeoutData) (cb : Bool) : SourceFuncs :=
  ⟨fun ct _slot => g_timeout_prepare data ct,
   fun ct => g_timeout_check data ct,
   fun ct => (g_timeout_dispatch data ct cb).2⟩

/-- g_timeout_add_full (gmain.c lines 778-799): build the timeout datum and
register it through g_source_add with can_recurse FALSE. -/
def g_timeout_add_full (priority : Int) (interval : Int) (cb : Bool)
    (now : GTimeVal) (s : MainState SourceFuncs) : MainState SourceFuncs × Nat :=
  g_source_add priority false (timeoutFuncs (g_timeout_data_new now interval) cb) s

/-- g_timeout_add (gmain.c lines 801-807): g_timeout_add_full at priority 0. -/
def g_timeout_add (interval : Int) (cb : Bool) (now : GTimeVal)
    (s : MainState SourceFuncs) : MainState SourceFuncs × Nat :=
  g_timeout_add_full 0 interval cb now s

/-! ## Idle functions (gmain.c lines 809-855) -/

/-- g_idle_prepare (gmain.c lines 811-818).  The C body is: timeout = 0;
return TRUE; - the assignment stores 0 into the local pointer parameter
itself, not through it, so the caller's timeout slot keeps whatever value
it had.  The model therefore returns the slot unchanged. -/
def g_idle_prepare (_current_time : GTimeVal) (slot : Int) : Bool × Int :=
  (true, slot)

/-- g_idle_check (gmain.c lines 820-825): always TRUE. -/
def g_idle_check (_current_time : GTimeVal) : Bool :=
  true

/-- g_idle_dispatch (gmain.c lines 827-835): forwards the user callback's
result, here supplied as cb. -/
def g_idle_dispatch (cb : Bool) : Bool :=
  cb

/-- The idle_funcs callback table, with the user callback's result cb. -/
def idleFuncs (cb : Bool) : SourceFuncs :=
  ⟨fun ct slot => g_idle_prepare ct slot,
   fun ct => g_idle_check ct,
   fun _ct => g_idle_dispatch cb⟩

/-- g_idle_add_full (gmain.c lines 837-848): register through g_source_add
with can_recurse FALSE. -/
def g_idle_add_full (priority : Int) (cb : Bool)
    (s : MainState SourceFuncs) : MainState SourceFuncs × Nat :=
  g_source_add priority false (idleFuncs cb) s

/-- g_idle_add (gmain.c lines 850-855): g_idle_add_full at priority 0. -/
def g_idle_add (cb : Bool) (s : MainState SourceFuncs) : MainState SourceFuncs × Nat :=
  g_idle_add_full 0 cb s

/-! ## The dispatch engine (gmain.c lines 337-525) -/

/-- One observable callback invocation of g_main_iterate: a prepare call
with the source's id, priority and result, a check call likewise, or a
dispatch of a source. -/
inductive Event
  | prepared (id : Nat) (priority : Int) (result : Bool)
  | checked (id : Nat) (priority : Int) (result : Bool)
  | dispatched (id : Nat) (priority : Int)
deriving Repr, DecidableEq

/-- The priority recorded in an event. -/
def Event.priority : Event → Int
  | .prepared _ p _ => p
  | .checked _ p _ => p
  | .dispatched _ p => p

/-- The source id recorded in an event. -/
def Event.sourceId : Event → Nat
  | .prepared i _ _ => i
  | .checked i _ _ => i
  | .dispatched i _ => i

/-- Some priority when the event reports a source found ready (a prepare or
check call returning true), none otherwise. -/
def Event.readyPrio : Event → Option Int
  | .prepared _ p true => some p
  | .checked _ p true => some p
  | _ => none

/-- The skip test of both walks of g_main_iterate (lines 422 and 479): a
source already in a call that may not recurse is passed over. -/
def skipped (src : Source F) : Bool :=
  !src.canRecurse && src.inCall

/-- Result of the prepare walk (g_main_iterate lines 409-461): the source
list with READY bits set, the nready counter, the priority ceiling
current_priority, the accumulated poll timeout, the events in order, and
whether the walk returned TRUE early (dispatch FALSE and a source prepared
ready). -/
structure PrepareResult where
  sources : List (Source SourceFuncs)
  nready : Int
  currentPriority : Int
  timeout : Int
  events : List Event
  early : Bool

/-- The prepare walk of g_main_iterate (lines 413-461), recursing over the
source list.  junk is the value of the uninitialized stack variable
source_timeout handed to each prepare call.  Walk order: stop when nready
is positive and the source's priority exceeds the ceiling; skip sources in
a non-recursive call; otherwise call prepare - on ready with dispatch FALSE
return TRUE at once, on ready with dispatch TRUE set the READY bit, bump
nready, lower the ceiling to this priority and force the timeout to 0; in
either case fold a nonnegative slot value into the timeout by MIN. -/
def prepareWalk (junk : Int) (ct : GTimeVal) (dispatch : Bool) :
    List (Source SourceFuncs) → Int → Int → Int → PrepareResult
  | [], nready, cp, timeout => ⟨[], nready, cp, timeout, [], false⟩
  | src :: rest, nready, cp, timeout =>
    if nready > 0 ∧ src.priority > cp then
      ⟨src :: rest, nready, cp, timeout, [], false⟩
    else if skipped src then
      let r := prepareWalk junk ct dispatch rest nready cp timeout
      ⟨src :: r.sources, r.nready, r.currentPriority, r.timeout, r.events, r.early⟩
    else
      let pr := src.funcs.prepare ct junk
      let ev := Event.prepared src.id src.priority pr.1
      if pr.1 then
        if dispatch then
          let timeout1 := if pr.2 ≥ 0 then min 0 pr.2 else 0
          let r := prepareWalk junk ct dispatch rest (nready + 1) src.priority timeout1
          ⟨{ src with ready := true } :: r.sources, r.nready, r.currentPriority,
            r.timeout, ev :: r.events, r.early⟩
        else
          ⟨src :: rest, nready, cp, timeout, [ev], true⟩
      else
        let timeout1 := if pr.2 ≥ 0 then (if timeout < 0 then pr.2 else min timeout pr.2)
          else timeout
        let r := prepareWalk junk ct dispatch rest nready cp timeout1
        ⟨src :: r.sources, r.nready, r.currentPriority, r.timeout, ev :: r.events, r.early⟩

/-- Result of the check walk (g_main_iterate lines 467-511): the source
list with READY bits cleared on selection, the selected sources in walk
order (pending_dispatches is built by prepending these and is reversed
before dispatching), the events, and whether the walk returned TRUE early
(dispatch FALSE and a source ready). -/
structure CheckResult where
  sources : List (Source SourceFuncs)
  selected : List (Source SourceFuncs)
  events : List Event
  early : Bool

/-- The check walk of g_main_iterate (lines 469-511).  Same ceiling and
skip rules as the prepare walk; a source is selected when its READY bit is
set or - short-circuit, the check callback is then not called - its check
returns true.  On selection with dispatch TRUE the READY bit is cleared,
the source joins the pending list, the ceiling becomes its priority and
nready grows; with dispatch FALSE the walk returns TRUE at once. -/
def checkWalk (ct : GTimeVal) (dispatch : Bool) :
    List (Source SourceFuncs) → Int → Int → CheckResult
  | [], _nready, _cp => ⟨[], [], [], false⟩
  | src :: rest, nready, cp =>
    if nready > 0 ∧ src.priority > cp then
      ⟨src :: rest, [], [], false⟩
    else if skipped src then
      let r := checkWalk ct dispatch rest nready cp
      ⟨src :: r.sources, r.selected, r.events, r.early⟩
    else if src.ready then
      if dispatch then
        let src' := { src with ready := false }
        let r := checkWalk ct dispatch rest (nready + 1) src.priority
        ⟨src' :: r.sources, src' :: r.selected, r.events, r.early⟩
      else
        ⟨src :: rest, [], [], true⟩
    else
      let res := src.funcs.check ct
      let ev := Event.checked src.id src.priority res
      if res then
        if dispatch then
          let src' := { src with ready := false }
          let r := checkWalk ct dispatch rest (nready + 1) src.priority
          ⟨src' :: r.sources, src' :: r.selected, ev :: r.events, r.early⟩
        else
          ⟨src :: rest, [], [ev], true⟩
      else
        let r := checkWalk ct dispatch rest nready cp
        ⟨src :: r.sources, r.selected, ev :: r.events, r.early⟩

/-- The loop body of g_main_dispatch (gmain.c lines 340-377) over the
already-reversed pending queue: pop each source; if it is still valid
(its id is still on the source list) call its dispatch - the IN_CALL bit is
set for the duration of the callback and cleared again - and on a false
result destroy the hook, unlinking it from the list. -/
def g_main_dispatch_go (ct : GTimeVal) :
    List (Source SourceFuncs) → List (Source SourceFuncs) →
    List (Source SourceFuncs) × List Event
  | [], srcs => (srcs, [])
  | p :: rest, srcs =>
    if (srcs.find? (fun x => x.id == p.id)).isSome then
      let keep := p.funcs.dispatch ct
      let srcs1 := if keep then srcs else srcs.eraseP (fun x => x.id == p.id)
      let r := g_main_dispatch_go ct rest srcs1
      (r.1, Event.dispatched p.id p.priority :: r.2)
    else
      g_main_dispatch_go ct rest srcs

/-- g_main_poll (gmain.c lines 574-631) as seen by a single-threaded run:
poll_waiting is set, the lock is dropped around the poll call, and since no
other thread clears the flag it is cleared again afterwards.  Poll records
and descriptor results are not modelled (no claim concerns them). -/
def g_main_poll_state (s : MainState SourceFuncs) : MainState SourceFuncs :=
  ⟨s.sources, s.pending, false, s.wakeupWrites, s.nextId, s.destroyed⟩

/-- g_main_iterate (gmain.c lines 383-525), instrumented with the event
trace.  The g_return_val_if_fail guard rejects block TRUE with dispatch
FALSE, returning FALSE.  A non-empty pending_dispatches queue (reentrancy
drain) is dispatched - when dispatch is TRUE - and the call returns TRUE
without any walk.  Otherwise: prepare walk (early TRUE return possible when
dispatch is FALSE), poll, check walk (likewise), then the pending list
built by the check walk is reversed and dispatched, TRUE iff anything was
selected. -/
def g_main_iterate (junk : Int) (block dispatch : Bool) (ct : GTimeVal)
    (s : MainState SourceFuncs) : MainState SourceFuncs × Bool × List Event :=
  if block ∧ ¬dispatch then (s, false, [])
  else if !s.pending.isEmpty then
    if dispatch then
      let d := g_main_dispatch_go ct s.pending s.sources
      (⟨d.1, [], s.pollWaiting, s.wakeupWrites, s.nextId, s.destroyed⟩, true, d.2)
    else (s, true, [])
  else
    let timeout0 : Int := if block then -1 else 0
    let pw := prepareWalk junk ct dispatch s.sources 0 0 timeout0
    if pw.early then (s, true, pw.events)
    else
      let s1 := g_main_poll_state
        ⟨pw.sources, s.pending, s.pollWaiting, s.wakeupWrites, s.nextId, s.destroyed⟩
      let cw := checkWalk ct dispatch s1.sources 0 pw.currentPriority
      if cw.early then
        (⟨cw.sources, s1.pending, s1.pollWaiting, s1.wakeupWrites, s1.nextId, s1.destroyed⟩,
          true, pw.events ++ cw.events)
      else
        let pendingBuilt := cw.selected.reverse
        if !pendingBuilt.isEmpty then
          let d := g_main_dispatch_go ct pendingBuilt.reverse cw.sources
          (⟨d.1, [], s1.pollWaiting, s1.wakeupWrites, s1.nextId, s1.destroyed⟩,
            true, pw.events ++ cw.events ++ d.2)
        else
          (⟨cw.sources, s1.pending, s1.pollWaiting, s1.wakeupWrites, s1.nextId, s1.destroyed⟩,
            false, pw.events ++ cw.events)

/-- g_main_pending (gmain.c lines 529-533). -/
def g_main_pending (junk : Int) (ct : GTimeVal) (s : MainState SourceFuncs) :
    MainState SourceFuncs × Bool × List Event :=
  g_main_iterate junk false false ct s

/-- g_main_iteration (gmain.c lines 538-542). -/
def g_main_iteration (junk : Int) (block : Bool) (ct : GTimeVal)
    (s : MainState SourceFuncs) : MainState SourceFuncs × Bool × List Event :=
  g_main_iterate junk block true ct s

/-! ## Derived notions used by the statements -/

/-- The priority-ceiling relation on events: whenever the earlier event
reports a source found ready at priority P, the later event concerns a
priority at most P (numerically greater priorities are shut out). -/
def ceilR (a b : Event) : Prop :=
  ∀ P, a.readyPrio = some P → b.priority ≤ P

/-- The identity and priority of a source. -/
def srcKey (x : Source F) : Nat × Int :=
  (x.id, x.priority)

/-- Registry order: strictly ascending priority, and within one priority
strictly ascending hook id (ids grow in registration order). -/
def regOrder (x y : Source F) : Prop :=
  x.priority < y.priority ∨ (x.priority = y.priority ∧ x.id < y.id)

/-- regOrder on (id, priority) keys. -/
def keyOrder (a b : Nat × Int) : Prop :=
  a.2 < b.2 ∨ (a.2 = b.2 ∧ a.1 < b.1)

/-- The (id, priority) key of a dispatch event, none for walk events. -/
def Event.dispKey : Event → Option (Nat × Int)
  | .dispatched i p => some (i, p)
  | _ => none

/-- The keys of the dispatch events of a trace, in order. -/
def dispatchedKeys (evs : List Event) : List (Nat × Int) :=
  evs.filterMap Event.dispKey

/-! ## Case equations for the walks -/

theorem prepareWalk_nil (junk : Int) (ct : GTimeVal) (dispatch : Bool) (n cp t : Int) :
    prepareWalk junk ct dispatch [] n cp t = ⟨[], n, cp, t, [], false⟩ := rfl

theorem prepareWalk_break (junk : Int) (ct : GTimeVal) (dispatch : Bool)
    (src : Source SourceFuncs) (rest : List (Source SourceFuncs)) (n cp t : Int)
    (h : n > 0 ∧ src.priority > cp) :
    prepareWalk junk ct dispatch (src :: rest) n cp t = ⟨src :: rest, n, cp, t, [], false⟩ := by
  simp [prepareWalk, h]

theorem prepareWalk_skip (junk : Int) (ct : GTimeVal) (dispatch : Bool)
    (src : Source SourceFuncs) (rest : List (Source SourceFuncs)) (n cp t : Int)
    (hbr : ¬(n > 0 ∧ src.priority > cp)) (hsk : skipped src = true) :
    prepareWalk junk ct dispatch (src :: rest) n cp t =
      ⟨src :: (prepareWalk junk ct dispatch rest n cp t).sources,
        (prepareWalk junk ct dispatch rest n cp t).nready,
        (prepareWalk junk ct dispatch rest n cp t).currentPriority,
        (prepareWalk junk ct dispatch rest n cp t).timeout,
        (prepareWalk junk ct dispatch rest n cp t).events,
        (prepareWalk junk ct dispatch rest n cp t).early⟩ := by
  simp [prepareWalk, hbr, hsk]

theorem prepareWalk_ready (junk : Int) (ct : GTimeVal)
    (src : Source SourceFuncs) (rest : List (Source SourceFuncs)) (n cp t : Int)
    (hbr : ¬(n > 0 ∧ src.priority > cp)) (hsk : skipped src = false)
    (hp : (src.funcs.prepare ct junk).1 = true) :
    prepareWalk junk ct true (src :: rest) n cp t =
      ⟨{ src with ready := true } ::
          (prepareWalk junk ct true rest (n + 1) src.priority
            (if (src.funcs.prepare ct junk).2 ≥ 0 then min 0 (src.funcs.prepare ct junk).2
              else 0)).sources,
        (prepareWalk junk ct true rest (n + 1) src.priority
          (if (src.funcs.prepare ct junk).2 ≥ 0 then min 0 (src.funcs.prepare ct junk).2
            else 0)).nready,
        (prepareWalk junk ct true rest (n + 1) src.priority
          (if (src.funcs.prepare ct junk).2 ≥ 0 then min 0 (src.funcs.prepare ct junk).2
            else 0)).currentPriority,
        (prepareWalk junk ct true rest (n + 1) src.priority
          (if (src.funcs.prepare ct junk).2 ≥ 0 then min 0 (src.funcs.prepare ct junk).2
            else 0)).timeout,
        Event.prepared src.id src.priority true ::
          (prepareWalk junk ct true rest (n + 1) src.priority
            (if (src.funcs.prepare ct junk).2 ≥ 0 then min 0 (src.funcs.prepare ct junk).2
              else 0)).events,
        (prepareWalk junk ct true rest (n + 1) src.priority
          (if (src.funcs.prepare ct junk).2 ≥ 0 then min 0 (src.funcs.prepare ct junk).2
            else 0)).early⟩ := by
  simp [prepareWalk, hbr, hsk, hp]

theorem prepareWalk_ready_nodispatch (junk : Int) (ct : GTimeVal)
    (src : Source SourceFuncs) (rest : List (Source SourceFuncs)) (n cp t : Int)
    (hbr : ¬(n > 0 ∧ src.priority > cp)) (hsk : skipped src = false)
    (hp : (src.funcs.prepare ct junk).1 = true) :
    prepareWalk junk ct false (src :: rest) n cp t =
      ⟨src :: rest, n, cp, t, [Event.prepared src.id src.priority true], true⟩ := by
  simp [prepareWalk, hbr, hsk, hp]

theorem prepareWalk_notready (junk : Int) (ct : GTimeVal) (dispatch : Bool)
    (src : Source SourceFuncs) (rest : List (Source SourceFuncs)) (n cp t : Int)
    (hbr : ¬(n > 0 ∧ src.priority > cp)) (hsk : skipped src = false)
    (hp : (src.funcs.prepare ct junk).1 = false) :
    prepareWalk junk ct dispatch (src :: rest) n cp t =
      ⟨src :: (prepareWalk junk ct dispatch rest n cp
          (if (src.funcs.prepare ct junk).2 ≥ 0 then
            (if t < 0 then (src.funcs.prepare ct junk).2 else min t (src.funcs.prepare ct junk).2)
            else t)).sources,
        (prepareWalk junk ct dispatch rest n cp
          (if (src.funcs.prepare ct junk).2 ≥ 0 then
            (if t < 0 then (src.funcs.prepare ct junk).2 else min t (src.funcs.prepare ct junk).2)
            else t)).nready,
        (prepareWalk junk ct dispatch rest n cp
          (if (src.funcs.prepare ct junk).2 ≥ 0 then
            (if t < 0 then (src.funcs.prepare ct junk).2 else min t (src.funcs.prepare ct junk).2)
            else t)).currentPriority,
        (prepareWalk junk ct dispatch rest n cp
          (if (src.funcs.prepare ct junk).2 ≥ 0 then
            (if t < 0 then (src.funcs.prepare ct junk).2 else min t (src.funcs.prepare ct junk).2)
            else t)).timeout,
        Event.prepared src.id src.priority false ::
          (prepareWalk junk ct dispatch rest n cp
            (if (src.funcs.prepare ct junk).2 ≥ 0 then
              (if t < 0 then (src.funcs.prepare ct junk).2 else min t (src.funcs.prepare ct junk).2)
              else t)).events,
        (prepareWalk junk ct dispatch rest n cp
          (if (src.funcs.prepare ct junk).2 ≥ 0 then
            (if t < 0 then (src.funcs.prepare ct junk).2 else min t (src.funcs.prepare ct junk).2)
            else t)).early⟩ := by
  simp [prepareWalk, hbr, hsk, hp]

theorem checkWalk_nil (ct : GTimeVal) (dispatch : Bool) (n cp : Int) :
    checkWalk ct dispatch [] n cp = ⟨[], [], [], false⟩ := rfl

theorem checkWalk_break (ct : GTimeVal) (dispatch : Bool)
    (src : Source SourceFuncs) (rest : List (Source SourceFuncs)) (n cp : Int)
    (h : n > 0 ∧ src.priority > cp) :
    checkWalk ct dispatch (src :: rest) n cp = ⟨src :: rest, [], [], false⟩ := by
  simp [checkWalk, h]

theorem checkWalk_skip (ct : GTimeVal) (dispatch : Bool)
    (src : Source SourceFuncs) (rest : List (Source SourceFuncs)) (n cp : Int)
    (hbr : ¬(n > 0 ∧ src.priority > cp)) (hsk : skipped src = true) :
    checkWalk ct dispatch (src :: rest) n cp =
      ⟨src :: (checkWalk ct dispatch rest n cp).sources,
        (checkWalk ct dispatch rest n cp).selected,
        (checkWalk ct dispatch rest n cp).events,
        (checkWalk ct dispatch rest n cp).early⟩ := by
  simp [checkWalk, hbr, hsk]

theorem checkWalk_readysel (ct : GTimeVal)
    (src : Source SourceFuncs) (rest : List (Source SourceFuncs)) (n cp : Int)
    (hbr : ¬(n > 0 ∧ src.priority > cp)) (hsk : skipped src = false)
    (hrd : src.ready = true) :
    checkWalk ct true (src :: rest) n cp =
      ⟨{ src with ready := false } :: (checkWalk ct true rest (n + 1) src.priority).sources,
        { src with ready := false } :: (checkWalk ct true rest (n + 1) src.priority).selected,
        (checkWalk ct true rest (n + 1) src.priority).events,
        (checkWalk ct true rest (n + 1) src.priority).early⟩ := by
  simp [checkWalk, hbr, hsk, hrd]

theorem checkWalk_readyearly (ct : GTimeVal)
    (src : Source SourceFuncs) (rest : List (Source SourceFuncs)) (n cp : Int)
    (hbr : ¬(n > 0 ∧ src.priority > cp)) (hsk : skipped src = false)
    (hrd : src.ready = true) :
    checkWalk ct false (src :: rest) n cp = ⟨src :: rest, [], [], true⟩ := by
  simp [checkWalk, hbr, hsk, hrd]

theorem checkWalk_checksel (ct : GTimeVal)
    (src : Source SourceFuncs) (rest : List (Source SourceFuncs)) (n cp : Int)
    (hbr : ¬(n > 0 ∧ src.priority > cp)) (hsk : skipped src = false)
    (hrd : src.ready = false) (hck : src.funcs.check ct = true) :
    checkWalk ct true (src :: rest) n cp =
      ⟨{ src with ready := false } :: (checkWalk ct true rest (n + 1) src.priority).sources,
        { src with ready := false } :: (checkWalk ct true rest (n + 1) src.priority).selected,
        Event.checked src.id src.priority true ::
          (checkWalk ct true rest (n + 1) src.priority).events,
        (checkWalk ct true rest (n + 1) src.priority).early⟩ := by
  simp [checkWalk, hbr, hsk, hrd, hck]

theorem checkWalk_checkearly (ct : GTimeVal)
    (src : Source SourceFuncs) (rest : List (Source SourceFuncs)) (n cp : Int)
    (hbr : ¬(n > 0 ∧ src.priority > cp)) (hsk : skipped src = false)
    (hrd : src.ready = false) (hck : src.funcs.check ct = true) :
    checkWalk ct false (src :: rest) n cp =
      ⟨src :: rest, [], [Event.checked src.id src.priority true], true⟩ := by
  simp [checkWalk, hbr, hsk, hrd, hck]

theorem checkWalk_checkfalse (ct : GTimeVal) (dispatch : Bool)
    (src : Source SourceFuncs) (rest : List (Source SourceFuncs)) (n cp : Int)
    (hbr : ¬(n > 0 ∧ src.priority > cp)) (hsk : skipped src = false)
    (hrd : src.ready = false) (hck : src.funcs.check ct = false) :
    checkWalk ct dispatch (src :: rest) n cp =
      ⟨src :: (checkWalk ct dispatch rest n cp).sources,
        (checkWalk ct dispatch rest n cp).selected,
        Event.checked src.id src.priority false :: (checkWalk ct dispatch rest n cp).events,
        (checkWalk ct dispatch rest n cp).early⟩ := by
  simp [checkWalk, hbr, hsk, hrd, hck]

theorem g_main_dispatch_go_nil (ct : GTimeVal) (srcs : List (Source SourceFuncs)) :
    g_main_dispatch_go ct [] srcs = (srcs, []) := rfl

theorem g_main_dispatch_go_valid (ct : GTimeVal) (p : Source SourceFuncs)
    (rest srcs : List (Source SourceFuncs))
    (h : (srcs.find? (fun x => x.id == p.id)).isSome = true) :
    g_main_dispatch_go ct (p :: rest) srcs =
      ((g_main_dispatch_go ct rest
          (if p.funcs.dispatch ct then srcs else srcs.eraseP (fun x => x.id == p.id))).1,
        Event.dispatched p.id p.priority ::
          (g_main_dispatch_go ct rest
            (if p.funcs.dispatch ct then srcs else srcs.eraseP (fun x => x.id == p.id))).2) := by
  simp [g_main_dispatch_go, h]

theorem g_main_dispatch_go_invalid (ct : GTimeVal) (p : Source SourceFuncs)
    (rest srcs : List (Source SourceFuncs))
    (h : (srcs.find? (fun x => x.id == p.id)).isSome = false) :
    g_main_dispatch_go ct (p :: rest) srcs = g_main_dispatch_go ct rest srcs := by
  simp [g_main_dispatch_go, h]

/-! ## Lemmas about the prepare walk -/

theorem prepareWalk_events_le (junk : Int) (ct : GTimeVal) (dispatch : Bool)
    (l : List (Source SourceFuncs)) :
    ∀ n cp t : Int, 0 < n →
      ∀ e ∈ (prepareWalk junk ct dispatch l n cp t).events, e.priority ≤ cp := by
  induction l with
  | nil =>
    intro n cp t _hn e he
    rw [prepareWalk_nil] at he
    simp at he
  | cons src rest ih =>
    intro n cp t hn e he
    by_cases hbr : n > 0 ∧ src.priority > cp
    · rw [prepareWalk_break _ _ _ _ _ _ _ _ hbr] at he
      simp at he
    · have hple : src.priority ≤ cp := by
        by_contra hc
        exact hbr ⟨hn, lt_of_not_le hc⟩
      by_cases hsk : skipped src
      · rw [prepareWalk_skip _ _ _ _ _ _ _ _ hbr hsk] at he
        exact ih n cp t hn e he
      · rw [Bool.not_eq_true] at hsk
        by_cases hp : (src.funcs.prepare ct junk).1
        · cases dispatch with
          | false =>
            rw [prepareWalk_ready_nodispatch _ _ _ _ _ _ _ hbr hsk hp] at he
            simp only [List.mem_singleton] at he
            subst he
            simpa [Event.priority] using hple
          | true =>
            rw [prepareWalk_ready _ _ _ _ _ _ _ hbr hsk hp] at he
            simp only [List.mem_cons] at he
            rcases he with he | he
            · subst he
              simpa [Event.priority] using hple
            · have := ih (n + 1) src.priority _ (by omega) e he
              omega
        · rw [Bool.not_eq_true] at hp
          rw [prepareWalk_notready _ _ _ _ _ _ _ _ hbr hsk hp] at he
          simp only [List.mem_cons] at he
          rcases he with he | he
          · subst he
            simpa [Event.priority] using hple
          · exact ih n cp _ hn e he

theorem prepareWalk_cp_le (junk : Int) (ct : GTimeVal) (dispatch : Bool)
    (l : List (Source SourceFuncs)) :
    ∀ n cp t : Int, 0 < n →
      (prepareWalk junk ct dispatch l n cp t).currentPriority ≤ cp := by
  induction l with
  | nil =>
    intro n cp t _hn
    rw [prepareWalk_nil]
  | cons src rest ih =>
    intro n cp t hn
    by_cases hbr : n > 0 ∧ src.priority > cp
    · rw [prepareWalk_break _ _ _ _ _ _ _ _ hbr]
    · have hple : src.priority ≤ cp := by
        by_contra hc
        exact hbr ⟨hn, lt_of_not_le hc⟩
      by_cases hsk : skipped src
      · rw [prepareWalk_skip _ _ _ _ _ _ _ _ hbr hsk]
        exact ih n cp t hn
      · rw [Bool.not_eq_true] at hsk
        by_cases hp : (src.funcs.prepare ct junk).1
        · cases dispatch with
          | false =>
            rw [prepareWalk_ready_nodispatch _ _ _ _ _ _ _ hbr hsk hp]
          | true =>
            rw [prepareWalk_ready _ _ _ _ _ _ _ hbr hsk hp]
            dsimp only
            have := ih (n + 1) src.priority
              (if (src.funcs.prepare ct junk).2 ≥ 0 then min 0 (src.funcs.prepare ct junk).2
                else 0) (by omega)
            omega
        · rw [Bool.not_eq_true] at hp
          rw [prepareWalk_notready _ _ _ _ _ _ _ _ hbr hsk hp]
          exact ih n cp _ hn

theorem prepareWalk_find_ge (junk : Int) (ct : GTimeVal)
    (l : List (Source SourceFuncs)) :
    ∀ n cp t : Int, 0 ≤ n → ∀ e ∈ (prepareWalk junk ct true l n cp t).events, ∀ P,
      e.readyPrio = some P → (prepareWalk junk ct true l n cp t).currentPriority ≤ P := by
  induction l with
  | nil =>
    intro n cp t _hn e he
    rw [prepareWalk_nil] at he
    simp at he
  | cons src rest ih =>
    intro n cp t hn e he P hP
    by_cases hbr : n > 0 ∧ src.priority > cp
    · rw [prepareWalk_break _ _ _ _ _ _ _ _ hbr] at he
      simp at he
    · by_cases hsk : skipped src
      · rw [prepareWalk_skip _ _ _ _ _ _ _ _ hbr hsk] at he ⊢
        exact ih n cp t hn e he P hP
      · rw [Bool.not_eq_true] at hsk
        by_cases hp : (src.funcs.prepare ct junk).1
        · rw [prepareWalk_ready _ _ _ _ _ _ _ hbr hsk hp] at he ⊢
          dsimp only at he ⊢
          simp only [List.mem_cons] at he
          rcases he with he | he
          · subst he
            simp only [Event.readyPrio, Option.some_inj] at hP
            subst hP
            exact prepareWalk_cp_le junk ct true rest (n + 1) src.priority _ (by omega)
          · exact ih (n + 1) src.priority _ (by omega) e he P hP
        · rw [Bool.not_eq_true] at hp
          rw [prepareWalk_notready _ _ _ _ _ _ _ _ hbr hsk hp] at he ⊢
          dsimp only at he ⊢
          simp only [List.mem_cons] at he
          rcases he with he | he
          · subst he
            simp [Event.readyPrio] at hP
          · exact ih n cp _ hn e he P hP

theorem prepareWalk_cp_of_nofind (junk : Int) (ct : GTimeVal)
    (l : List (Source SourceFuncs)) :
    ∀ n cp t : Int, (∀ e ∈ (prepareWalk junk ct true l n cp t).events, e.readyPrio = none) →
      (prepareWalk junk ct true l n cp t).currentPriority = cp := by
  induction l with
  | nil =>
    intro n cp t _h
    rw [prepareWalk_nil]
  | cons src rest ih =>
    intro n cp t h
    by_cases hbr : n > 0 ∧ src.priority > cp
    · rw [prepareWalk_break _ _ _ _ _ _ _ _ hbr]
    · by_cases hsk : skipped src
      · rw [prepareWalk_skip _ _ _ _ _ _ _ _ hbr hsk] at h ⊢
        exact ih n cp t h
      · rw [Bool.not_eq_true] at hsk
        by_cases hp : (src.funcs.prepare ct junk).1
        · exfalso
          have := h (Event.prepared src.id src.priority true)
          rw [prepareWalk_ready _ _ _ _ _ _ _ hbr hsk hp] at this
          simp [Event.readyPrio] at this
        · rw [Bool.not_eq_true] at hp
          rw [prepareWalk_notready _ _ _ _ _ _ _ _ hbr hsk hp] at h ⊢
          dsimp only at h ⊢
          exact ih n cp _ (fun e he => h e (List.mem_cons_of_mem _ he))

theorem prepareWalk_witness (junk : Int) (ct : GTimeVal)
    (l : List (Source SourceFuncs)) :
    ∀ n cp t : Int, (∃ e ∈ (prepareWalk junk ct true l n cp t).events, e.readyPrio ≠ none) →
      ∃ w ∈ (prepareWalk junk ct true l n cp t).sources, w.ready = true ∧
        skipped w = false ∧ w.priority = (prepareWalk junk ct true l n cp t).currentPriority := by
  induction l with
  | nil =>
    intro n cp t h
    rw [prepareWalk_nil] at h
    simp at h
  | cons src rest ih =>
    intro n cp t h
    by_cases hbr : n > 0 ∧ src.priority > cp
    · rw [prepareWalk_break _ _ _ _ _ _ _ _ hbr] at h
      simp at h
    · by_cases hsk : skipped src
      · rw [prepareWalk_skip _ _ _ _ _ _ _ _ hbr hsk] at h ⊢
        dsimp only at h ⊢
        obtain ⟨w, hw, hprops⟩ := ih n cp t h
        exact ⟨w, List.mem_cons_of_mem _ hw, hprops⟩
      · rw [Bool.not_eq_true] at hsk
        by_cases hp : (src.funcs.prepare ct junk).1
        · rw [prepareWalk_ready _ _ _ _ _ _ _ hbr hsk hp] at h ⊢
          dsimp only at h ⊢
          by_cases hrest : ∃ e ∈ (prepareWalk junk ct true rest (n + 1) src.priority
              (if (src.funcs.prepare ct junk).2 ≥ 0 then min 0 (src.funcs.prepare ct junk).2
                else 0)).events, e.readyPrio ≠ none
          · obtain ⟨w, hw, hprops⟩ := ih (n + 1) src.priority _ hrest
            exact ⟨w, List.mem_cons_of_mem _ hw, hprops⟩
          · push_neg at hrest
            refine ⟨{ src with ready := true }, List.mem_cons_self _ _, rfl, ?_, ?_⟩
            · simpa [skipped] using hsk
            · exact (prepareWalk_cp_of_nofind junk ct rest (n + 1) src.priority _ hrest).symm
        · rw [Bool.not_eq_true] at hp
          rw [prepareWalk_notready _ _ _ _ _ _ _ _ hbr hsk hp] at h ⊢
          dsimp only at h ⊢
          obtain ⟨e, he, hne⟩ := h
          simp only [List.mem_cons] at he
          rcases he with he | he
          · subst he
            simp [Event.readyPrio] at hne
          · obtain ⟨w, hw, hprops⟩ := ih n cp _ ⟨e, he, hne⟩
            exact ⟨w, List.mem_cons_of_mem _ hw, hprops⟩

theorem prepareWalk_pairwise (junk : Int) (ct : GTimeVal) (dispatch : Bool)
    (l : List (Source SourceFuncs)) :
    ∀ n cp t : Int, 0 ≤ n → (prepareWalk junk ct dispatch l n cp t).events.Pairwise ceilR := by
  induction l with
  | nil =>
    intro n cp t _hn
    rw [prepareWalk_nil]
    exact List.Pairwise.nil
  | cons src rest ih =>
    intro n cp t hn
    by_cases hbr : n > 0 ∧ src.priority > cp
    · rw [prepareWalk_break _ _ _ _ _ _ _ _ hbr]
      exact List.Pairwise.nil
    · by_cases hsk : skipped src
      · rw [prepareWalk_skip _ _ _ _ _ _ _ _ hbr hsk]
        exact ih n cp t hn
      · rw [Bool.not_eq_true] at hsk
        by_cases hp : (src.funcs.prepare ct junk).1
        · cases dispatch with
          | false =>
            rw [prepareWalk_ready_nodispatch _ _ _ _ _ _ _ hbr hsk hp]
            simp
          | true =>
            rw [prepareWalk_ready _ _ _ _ _ _ _ hbr hsk hp]
            dsimp only
            refine List.Pairwise.cons ?_ (ih (n + 1) src.priority _ (by omega))
            intro b hb P hP
            simp only [Event.readyPrio, Option.some_inj] at hP
            subst hP
            exact prepareWalk_events_le junk ct true rest (n + 1) src.priority _
              (by omega) b hb
        · rw [Bool.not_eq_true] at hp
          rw [prepareWalk_notready _ _ _ _ _ _ _ _ hbr hsk hp]
          dsimp only
          refine List.Pairwise.cons ?_ (ih n cp _ hn)
          intro b _hb P hP
          simp [Event.readyPrio] at hP

theorem prepareWalk_key_eq (junk : Int) (ct : GTimeVal) (dispatch : Bool)
    (l : List (Source SourceFuncs)) :
    ∀ n cp t : Int,
      (prepareWalk junk ct dispatch l n cp t).sources.map srcKey = l.map srcKey := by
  induction l with
  | nil =>
    intro n cp t
    rw [prepareWalk_nil]
  | cons src rest ih =>
    intro n cp t
    by_cases hbr : n > 0 ∧ src.priority > cp
    · rw [prepareWalk_break _ _ _ _ _ _ _ _ hbr]
    · by_cases hsk : skipped src
      · rw [prepareWalk_skip _ _ _ _ _ _ _ _ hbr hsk]
        dsimp only [List.map_cons]
        rw [ih n cp t]
      · rw [Bool.not_eq_true] at hsk
        by_cases hp : (src.funcs.prepare ct junk).1
        · cases dispatch with
          | false =>
            rw [prepareWalk_ready_nodispatch _ _ _ _ _ _ _ hbr hsk hp]
          | true =>
            rw [prepareWalk_ready _ _ _ _ _ _ _ hbr hsk hp]
            dsimp only [List.map_cons]
            rw [ih (n + 1) src.priority _]
            rfl
        · rw [Bool.not_eq_true] at hp
          rw [prepareWalk_notready _ _ _ _ _ _ _ _ hbr hsk hp]
          dsimp only [List.map_cons]
          rw [ih n cp _]

theorem prepareWalk_mem_of_skipped (junk : Int) (ct : GTimeVal) (dispatch : Bool)
    (l : List (Source SourceFuncs)) (src : Source SourceFuncs) :
    ∀ n cp t : Int, src ∈ l → skipped src = true →
      src ∈ (prepareWalk junk ct dispatch l n cp t).sources := by
  induction l with
  | nil =>
    intro n cp t hm _
    simp at hm
  | cons hd rest ih =>
    intro n cp t hm hskip
    by_cases hbr : n > 0 ∧ hd.priority > cp
    · rw [prepareWalk_break _ _ _ _ _ _ _ _ hbr]
      exact hm
    · rcases List.mem_cons.mp hm with hm | hm
      · subst hm
        rw [prepareWalk_skip _ _ _ _ _ _ _ _ hbr hskip]
        exact List.mem_cons_self _ _
      · by_cases hsk : skipped hd
        · rw [prepareWalk_skip _ _ _ _ _ _ _ _ hbr hsk]
          exact List.mem_cons_of_mem _ (ih n cp t hm hskip)
        · rw [Bool.not_eq_true] at hsk
          by_cases hp : (hd.funcs.prepare ct junk).1
          · cases dispatch with
            | false =>
              rw [prepareWalk_ready_nodispatch _ _ _ _ _ _ _ hbr hsk hp]
              exact List.mem_cons_of_mem _ hm
            | true =>
              rw [prepareWalk_ready _ _ _ _ _ _ _ hbr hsk hp]
              exact List.mem_cons_of_mem _ (ih (n + 1) hd.priority _ hm hskip)
          · rw [Bool.not_eq_true] at hp
            rw [prepareWalk_notready _ _ _ _ _ _ _ _ hbr hsk hp]
            exact List.mem_cons_of_mem _ (ih n cp _ hm hskip)

theorem prepareWalk_events_from (junk : Int) (ct : GTimeVal) (dispatch : Bool)
    (l : List (Source SourceFuncs)) :
    ∀ n cp t : Int, ∀ e ∈ (prepareWalk junk ct dispatch l n cp t).events,
      ∃ x ∈ l, skipped x = false ∧ e.sourceId = x.id := by
  induction l with
  | nil =>
    intro n cp t e he
    rw [prepareWalk_nil] at he
    simp at he
  | cons src rest ih =>
    intro n cp t e he
    by_cases hbr : n > 0 ∧ src.priority > cp
    · rw [prepareWalk_break _ _ _ _ _ _ _ _ hbr] at he
      simp at he
    · by_cases hsk : skipped src
      · rw [prepareWalk_skip _ _ _ _ _ _ _ _ hbr hsk] at he
        obtain ⟨x, hx, hprops⟩ := ih n cp t e he
        exact ⟨x, List.mem_cons_of_mem _ hx, hprops⟩
      · rw [Bool.not_eq_true] at hsk
        by_cases hp : (src.funcs.prepare ct junk).1
        · cases dispatch with
          | false =>
            rw [prepareWalk_ready_nodispatch _ _ _ _ _ _ _ hbr hsk hp] at he
            simp only [List.mem_singleton] at he
            subst he
            exact ⟨src, List.mem_cons_self _ _, hsk, rfl⟩
          | true =>
            rw [prepareWalk_ready _ _ _ _ _ _ _ hbr hsk hp] at he
            dsimp only at he
            rcases List.mem_cons.mp he with he | he
            · subst he
              exact ⟨src, List.mem_cons_self _ _, hsk, rfl⟩
            · obtain ⟨x, hx, hprops⟩ := ih (n + 1) src.priority _ e he
              exact ⟨x, List.mem_cons_of_mem _ hx, hprops⟩
        · rw [Bool.not_eq_true] at hp
          rw [prepareWalk_notready _ _ _ _ _ _ _ _ hbr hsk hp] at he
          dsimp only at he
          rcases List.mem_cons.mp he with he | he
          · subst he
            exact ⟨src, List.mem_cons_self _ _, hsk, rfl⟩
          · obtain ⟨x, hx, hprops⟩ := ih n cp _ e he
            exact ⟨x, List.mem_cons_of_mem _ hx, hprops⟩

theorem prepareWalk_events_shape (junk : Int) (ct : GTimeVal) (dispatch : Bool)
    (l : List (Source SourceFuncs)) :
    ∀ n cp t : Int, ∀ e ∈ (prepareWalk junk ct dispatch l n cp t).events,
      ∃ i p b, e = Event.prepared i p b := by
  induction l with
  | nil =>
    intro n cp t e he
    rw [prepareWalk_nil] at he
    simp at he
  | cons src rest ih =>
    intro n cp t e he
    by_cases hbr : n > 0 ∧ src.priority > cp
    · rw [prepareWalk_break _ _ _ _ _ _ _ _ hbr] at he
      simp at he
    · by_cases hsk : skipped src
      · rw [prepareWalk_skip _ _ _ _ _ _ _ _ hbr hsk] at he
        exact ih n cp t e he
      · rw [Bool.not_eq_true] at hsk
        by_cases hp : (src.funcs.prepare ct junk).1
        · cases dispatch with
          | false =>
            rw [prepareWalk_ready_nodispatch _ _ _ _ _ _ _ hbr hsk hp] at he
            simp only [List.mem_singleton] at he
            exact ⟨_, _, _, he⟩
          | true =>
            rw [prepareWalk_ready _ _ _ _ _ _ _ hbr hsk hp] at he
            dsimp only at he
            rcases List.mem_cons.mp he with he | he
            · exact ⟨_, _, _, he⟩
            · exact ih (n + 1) src.priority _ e he
        · rw [Bool.not_eq_true] at hp
          rw [prepareWalk_notready _ _ _ _ _ _ _ _ hbr hsk hp] at he
          dsimp only at he
          rcases List.mem_cons.mp he with he | he
          · exact ⟨_, _, _, he⟩
          · exact ih n cp _ e he

theorem prepareWalk_dispKey_none (junk : Int) (ct : GTimeVal) (dispatch : Bool)
    (l : List (Source SourceFuncs)) :
    ∀ n cp t : Int, ∀ e ∈ (prepareWalk junk ct dispatch l n cp t).events,
      e.dispKey = none := by
  intro n cp t e he
  obtain ⟨i, p, b, rfl⟩ := prepareWalk_events_shape junk ct dispatch l n cp t e he
  rfl

theorem prepareWalk_nofind_of_nodispatch (junk : Int) (ct : GTimeVal)
    (l : List (Source SourceFuncs)) :
    ∀ n cp t : Int, (prepareWalk junk ct false l n cp t).early = false →
      ∀ e ∈ (prepareWalk junk ct false l n cp t).events, e.readyPrio = none := by
  induction l with
  | nil =>
    intro n cp t _he e hm
    rw [prepareWalk_nil] at hm
    simp at hm
  | cons src rest ih =>
    intro n cp t hearly e hm
    by_cases hbr : n > 0 ∧ src.priority > cp
    · rw [prepareWalk_break _ _ _ _ _ _ _ _ hbr] at hm
      simp at hm
    · by_cases hsk : skipped src
      · rw [prepareWalk_skip _ _ _ _ _ _ _ _ hbr hsk] at hearly hm
        exact ih n cp t hearly e hm
      · rw [Bool.not_eq_true] at hsk
        by_cases hp : (src.funcs.prepare ct junk).1
        · rw [prepareWalk_ready_nodispatch _ _ _ _ _ _ _ hbr hsk hp] at hearly
          simp at hearly
        · rw [Bool.not_eq_true] at hp
          rw [prepareWalk_notready _ _ _ _ _ _ _ _ hbr hsk hp] at hearly hm
          dsimp only at hearly hm
          rcases List.mem_cons.mp hm with hm | hm
          · subst hm
            rfl
          · exact ih n cp _ hearly e hm

theorem prepareWalk_not_early (junk : Int) (ct : GTimeVal)
    (l : List (Source SourceFuncs)) :
    ∀ n cp t : Int, (prepareWalk junk ct true l n cp t).early = false := by
  induction l with
  | nil =>
    intro n cp t
    rw [prepareWalk_nil]
  | cons src rest ih =>
    intro n cp t
    by_cases hbr : n > 0 ∧ src.priority > cp
    · rw [prepareWalk_break _ _ _ _ _ _ _ _ hbr]
    · by_cases hsk : skipped src
      · rw [prepareWalk_skip _ _ _ _ _ _ _ _ hbr hsk]
        exact ih n cp t
      · rw [Bool.not_eq_true] at hsk
        by_cases hp : (src.funcs.prepare ct junk).1
        · rw [prepareWalk_ready _ _ _ _ _ _ _ hbr hsk hp]
          exact ih (n + 1) src.priority _
        · rw [Bool.not_eq_true] at hp
          rw [prepareWalk_notready _ _ _ _ _ _ _ _ hbr hsk hp]
          exact ih n cp _

/-! ## Lemmas about the check walk -/

theorem Event.priority_of_readyPrio (e : Event) (P : Int) (h : e.readyPrio = some P) :
    e.priority = P := by
  cases e with
  | prepared i p b =>
    cases b with
    | false => simp [Event.readyPrio] at h
    | true =>
      simp only [Event.readyPrio, Option.some_inj] at h
      simpa [Event.priority] using h
  | checked i p b =>
    cases b with
    | false => simp [Event.readyPrio] at h
    | true =>
      simp only [Event.readyPrio, Option.some_inj] at h
      simpa [Event.priority] using h
  | dispatched i p => simp [Event.readyPrio] at h

theorem checkWalk_bound (ct : GTimeVal) (dispatch : Bool)
    (l : List (Source SourceFuncs)) :
    ∀ n cp : Int, 0 < n →
      (∀ e ∈ (checkWalk ct dispatch l n cp).events, e.priority ≤ cp) ∧
      (∀ y ∈ (checkWalk ct dispatch l n cp).selected, y.priority ≤ cp) := by
  induction l with
  | nil =>
    intro n cp _hn
    rw [checkWalk_nil]
    constructor <;> intro e he <;> simp at he
  | cons src rest ih =>
    intro n cp hn
    by_cases hbr : n > 0 ∧ src.priority > cp
    · rw [checkWalk_break _ _ _ _ _ _ hbr]
      constructor <;> intro e he <;> simp at he
    · have hple : src.priority ≤ cp := by
        by_contra hc
        exact hbr ⟨hn, lt_of_not_le hc⟩
      by_cases hsk : skipped src
      · rw [checkWalk_skip _ _ _ _ _ _ hbr hsk]
        exact ih n cp hn
      · rw [Bool.not_eq_true] at hsk
        by_cases hrd : src.ready
        · cases dispatch with
          | false =>
            rw [checkWalk_readyearly _ _ _ _ _ hbr hsk hrd]
            constructor <;> intro e he <;> simp at he
          | true =>
            rw [checkWalk_readysel _ _ _ _ _ hbr hsk hrd]
            dsimp only
            obtain ⟨ihe, ihs⟩ := ih (n + 1) src.priority (by omega)
            refine ⟨fun e he => le_trans (ihe e he) hple, fun y hy => ?_⟩
            rcases List.mem_cons.mp hy with hy | hy
            · subst hy
              exact hple
            · exact le_trans (ihs y hy) hple
        · rw [Bool.not_eq_true] at hrd
          by_cases hck : src.funcs.check ct
          · cases dispatch with
            | false =>
              rw [checkWalk_checkearly _ _ _ _ _ hbr hsk hrd hck]
              constructor
              · intro e he
                simp only [List.mem_singleton] at he
                subst he
                simpa [Event.priority] using hple
              · intro y hy
                simp at hy
            | true =>
              rw [checkWalk_checksel _ _ _ _ _ hbr hsk hrd hck]
              dsimp only
              obtain ⟨ihe, ihs⟩ := ih (n + 1) src.priority (by omega)
              constructor
              · intro e he
                rcases List.mem_cons.mp he with he | he
                · subst he
                  simpa [Event.priority] using hple
                · exact le_trans (ihe e he) hple
              · intro y hy
                rcases List.mem_cons.mp hy with hy | hy
                · subst hy
                  exact hple
                · exact le_trans (ihs y hy) hple
          · rw [Bool.not_eq_true] at hck
            rw [checkWalk_checkfalse _ _ _ _ _ _ hbr hsk hrd hck]
            dsimp only
            obtain ⟨ihe, ihs⟩ := ih n cp hn
            constructor
            · intro e he
              rcases List.mem_cons.mp he with he | he
              · subst he
                simpa [Event.priority] using hple
              · exact ihe e he
            · exact ihs

theorem checkWalk_pairwise (ct : GTimeVal) (dispatch : Bool)
    (l : List (Source SourceFuncs)) :
    ∀ n cp : Int, 0 ≤ n → (checkWalk ct dispatch l n cp).events.Pairwise ceilR := by
  induction l with
  | nil =>
    intro n cp _hn
    rw [checkWalk_nil]
    exact List.Pairwise.nil
  | cons src rest ih =>
    intro n cp hn
    by_cases hbr : n > 0 ∧ src.priority > cp
    · rw [checkWalk_break _ _ _ _ _ _ hbr]
      exact List.Pairwise.nil
    · by_cases hsk : skipped src
      · rw [checkWalk_skip _ _ _ _ _ _ hbr hsk]
        exact ih n cp hn
      · rw [Bool.not_eq_true] at hsk
        by_cases hrd : src.ready
        · cases dispatch with
          | false =>
            rw [checkWalk_readyearly _ _ _ _ _ hbr hsk hrd]
            exact List.Pairwise.nil
          | true =>
            rw [checkWalk_readysel _ _ _ _ _ hbr hsk hrd]
            exact ih (n + 1) src.priority (by omega)
        · rw [Bool.not_eq_true] at hrd
          by_cases hck : src.funcs.check ct
          · cases dispatch with
            | false =>
              rw [checkWalk_checkearly _ _ _ _ _ hbr hsk hrd hck]
              simp
            | true =>
              rw [checkWalk_checksel _ _ _ _ _ hbr hsk hrd hck]
              dsimp only
              refine List.Pairwise.cons ?_ (ih (n + 1) src.priority (by omega))
              intro b hb P hP
              simp only [Event.readyPrio, Option.some_inj] at hP
              subst hP
              exact (checkWalk_bound ct true rest (n + 1) src.priority (by omega)).1 b hb
          · rw [Bool.not_eq_true] at hck
            rw [checkWalk_checkfalse _ _ _ _ _ _ hbr hsk hrd hck]
            dsimp only
            refine List.Pairwise.cons ?_ (ih n cp hn)
            intro b _hb P hP
            simp [Event.readyPrio] at hP

theorem checkWalk_all_eq (ct : GTimeVal) (dispatch : Bool)
    (l : List (Source SourceFuncs)) :
    ∀ n cp : Int, 0 < n → (∀ x ∈ l, cp ≤ x.priority) →
      (∀ e ∈ (checkWalk ct dispatch l n cp).events, e.priority = cp) ∧
      (∀ y ∈ (checkWalk ct dispatch l n cp).selected, y.priority = cp) := by
  induction l with
  | nil =>
    intro n cp _hn _hl
    rw [checkWalk_nil]
    constructor <;> intro e he <;> simp at he
  | cons src rest ih =>
    intro n cp hn hl
    by_cases hbr : n > 0 ∧ src.priority > cp
    · rw [checkWalk_break _ _ _ _ _ _ hbr]
      constructor <;> intro e he <;> simp at he
    · have hge : cp ≤ src.priority := hl src (List.mem_cons_self _ _)
      have hple : src.priority ≤ cp := by
        by_contra hc
        exact hbr ⟨hn, lt_of_not_le hc⟩
      have heq : src.priority = cp := le_antisymm hple hge
      have hltail : ∀ x ∈ rest, cp ≤ x.priority := fun x hx => hl x (List.mem_cons_of_mem _ hx)
      by_cases hsk : skipped src
      · rw [checkWalk_skip _ _ _ _ _ _ hbr hsk]
        exact ih n cp hn hltail
      · rw [Bool.not_eq_true] at hsk
        by_cases hrd : src.ready
        · cases dispatch with
          | false =>
            rw [checkWalk_readyearly _ _ _ _ _ hbr hsk hrd]
            constructor <;> intro e he <;> simp at he
          | true =>
            rw [checkWalk_readysel _ _ _ _ _ hbr hsk hrd]
            dsimp only
            rw [heq]
            obtain ⟨ihe, ihs⟩ := ih (n + 1) cp (by omega) hltail
            refine ⟨ihe, fun y hy => ?_⟩
            rcases List.mem_cons.mp hy with hy | hy
            · subst hy
              rfl
            · exact ihs y hy
        · rw [Bool.not_eq_true] at hrd
          by_cases hck : src.funcs.check ct
          · cases dispatch with
            | false =>
              rw [checkWalk_checkearly _ _ _ _ _ hbr hsk hrd hck]
              constructor
              · intro e he
                simp only [List.mem_singleton] at he
                subst he
                simpa [Event.priority] using heq
              · intro y hy
                simp at hy
            | true =>
              rw [checkWalk_checksel _ _ _ _ _ hbr hsk hrd hck]
              dsimp only
              rw [heq]
              obtain ⟨ihe, ihs⟩ := ih (n + 1) cp (by omega) hltail
              constructor
              · intro e he
                rcases List.mem_cons.mp he with he | he
                · subst he
                  rfl
                · exact ihe e he
              · intro y hy
                rcases List.mem_cons.mp hy with hy | hy
                · subst hy
                  rfl
                · exact ihs y hy
          · rw [Bool.not_eq_true] at hck
            rw [checkWalk_checkfalse _ _ _ _ _ _ hbr hsk hrd hck]
            dsimp only
            obtain ⟨ihe, ihs⟩ := ih n cp hn hltail
            constructor
            · intro e he
              rcases List.mem_cons.mp he with he | he
              · subst he
                simpa [Event.priority] using heq
              · exact ihe e he
            · exact ihs

theorem checkWalk_ready_bound (ct : GTimeVal)
    (l : List (Source SourceFuncs)) (x : Source SourceFuncs) :
    ∀ cp : Int, l.Pairwise (fun a b => a.priority ≤ b.priority) →
      x ∈ l → x.ready = true → skipped x = false →
      (∀ e ∈ (checkWalk ct true l 0 cp).events, e.priority ≤ x.priority) ∧
      (∀ y ∈ (checkWalk ct true l 0 cp).selected, y.priority ≤ x.priority) := by
  induction l with
  | nil =>
    intro cp _hs hm
    simp at hm
  | cons src rest ih =>
    intro cp hs hm hxr hxs
    have hbr : ¬((0:Int) > 0 ∧ src.priority > cp) := fun h => absurd h.1 (lt_irrefl 0)
    rcases List.pairwise_cons.mp hs with ⟨hhd, htl⟩
    rcases List.mem_cons.mp hm with hm | hm
    · subst hm
      rw [checkWalk_readysel _ _ _ _ _ hbr hxs hxr]
      dsimp only
      obtain ⟨ihe, ihs⟩ := checkWalk_bound ct true rest 1 x.priority (by omega)
      refine ⟨ihe, fun y hy => ?_⟩
      rcases List.mem_cons.mp hy with hy | hy
      · subst hy
        exact le_refl _
      · exact ihs y hy
    · have hxp : src.priority ≤ x.priority := hhd x hm
      by_cases hsk : skipped src
      · rw [checkWalk_skip _ _ _ _ _ _ hbr hsk]
        exact ih cp htl hm hxr hxs
      · rw [Bool.not_eq_true] at hsk
        by_cases hrd : src.ready
        · rw [checkWalk_readysel _ _ _ _ _ hbr hsk hrd]
          dsimp only
          obtain ⟨ihe, ihs⟩ := checkWalk_bound ct true rest 1 src.priority (by omega)
          refine ⟨fun e he => le_trans (ihe e he) hxp, fun y hy => ?_⟩
          rcases List.mem_cons.mp hy with hy | hy
          · subst hy
            exact hxp
          · exact le_trans (ihs y hy) hxp
        · rw [Bool.not_eq_true] at hrd
          by_cases hck : src.funcs.check ct
          · rw [checkWalk_checksel _ _ _ _ _ hbr hsk hrd hck]
            dsimp only
            obtain ⟨ihe, ihs⟩ := checkWalk_bound ct true rest 1 src.priority (by omega)
            constructor
            · intro e he
              rcases List.mem_cons.mp he with he | he
              · subst he
                simpa [Event.priority] using hxp
              · exact le_trans (ihe e he) hxp
            · intro y hy
              rcases List.mem_cons.mp hy with hy | hy
              · subst hy
                exact hxp
              · exact le_trans (ihs y hy) hxp
          · rw [Bool.not_eq_true] at hck
            rw [checkWalk_checkfalse _ _ _ _ _ _ hbr hsk hrd hck]
            dsimp only
            obtain ⟨ihe, ihs⟩ := ih cp htl hm hxr hxs
            constructor
            · intro e he
              rcases List.mem_cons.mp he with he | he
              · subst he
                simpa [Event.priority] using hxp
              · exact ihe e he
            · exact ihs

theorem checkWalk_find_sel (ct : GTimeVal) (l : List (Source SourceFuncs)) :
    ∀ cp : Int, l.Pairwise (fun a b => a.priority ≤ b.priority) →
      ∀ f ∈ (checkWalk ct true l 0 cp).events, ∀ P, f.readyPrio = some P →
        ∀ y ∈ (checkWalk ct true l 0 cp).selected, y.priority ≤ P := by
  induction l with
  | nil =>
    intro cp _hs f hf
    rw [checkWalk_nil] at hf
    simp at hf
  | cons src rest ih =>
    intro cp hs f hf P hP y hy
    have hbr : ¬((0:Int) > 0 ∧ src.priority > cp) := fun h => absurd h.1 (lt_irrefl 0)
    rcases List.pairwise_cons.mp hs with ⟨hhd, htl⟩
    by_cases hsk : skipped src
    · rw [checkWalk_skip _ _ _ _ _ _ hbr hsk] at hf hy
      exact ih cp htl f hf P hP y hy
    · rw [Bool.not_eq_true] at hsk
      by_cases hrd : src.ready
      · rw [checkWalk_readysel _ _ _ _ _ hbr hsk hrd] at hf hy
        dsimp only at hf hy
        obtain ⟨heq, hseq⟩ := checkWalk_all_eq ct true rest 1 src.priority (by omega) hhd
        have hPval : P = src.priority := by
          have := heq f hf
          rw [← Event.priority_of_readyPrio f P hP]
          exact this
        subst hPval
        rcases List.mem_cons.mp hy with hy | hy
        · subst hy
          exact le_refl _
        · rw [hseq y hy]
      · rw [Bool.not_eq_true] at hrd
        by_cases hck : src.funcs.check ct
        · rw [checkWalk_checksel _ _ _ _ _ hbr hsk hrd hck] at hf hy
          dsimp only at hf hy
          obtain ⟨heq, hseq⟩ := checkWalk_all_eq ct true rest 1 src.priority (by omega) hhd
          have hPval : P = src.priority := by
            rcases List.mem_cons.mp hf with hf | hf
            · subst hf
              simp only [Event.readyPrio, Option.some_inj] at hP
              exact hP.symm
            · have := heq f hf
              rw [← Event.priority_of_readyPrio f P hP]
              exact this
          subst hPval
          rcases List.mem_cons.mp hy with hy | hy
          · subst hy
            exact le_refl _
          · rw [hseq y hy]
        · rw [Bool.not_eq_true] at hck
          rw [checkWalk_checkfalse _ _ _ _ _ _ hbr hsk hrd hck] at hf hy
          dsimp only at hf hy
          rcases List.mem_cons.mp hf with hf | hf
          · subst hf
            simp [Event.readyPrio] at hP
          · exact ih cp htl f hf P hP y hy

theorem checkWalk_sel_key_sublist (ct : GTimeVal) (dispatch : Bool)
    (l : List (Source SourceFuncs)) :
    ∀ n cp : Int, ((checkWalk ct dispatch l n cp).selected.map srcKey).Sublist
      (l.map srcKey) := by
  induction l with
  | nil =>
    intro n cp
    rw [checkWalk_nil]
  | cons src rest ih =>
    intro n cp
    by_cases hbr : n > 0 ∧ src.priority > cp
    · rw [checkWalk_break _ _ _ _ _ _ hbr]
      simp
    · by_cases hsk : skipped src
      · rw [checkWalk_skip _ _ _ _ _ _ hbr hsk]
        exact List.Sublist.cons _ (ih n cp)
      · rw [Bool.not_eq_true] at hsk
        by_cases hrd : src.ready
        · cases dispatch with
          | false =>
            rw [checkWalk_readyearly _ _ _ _ _ hbr hsk hrd]
            simp
          | true =>
            rw [checkWalk_readysel _ _ _ _ _ hbr hsk hrd]
            dsimp only [List.map_cons]
            exact List.Sublist.cons₂ _ (ih (n + 1) src.priority)
        · rw [Bool.not_eq_true] at hrd
          by_cases hck : src.funcs.check ct
          · cases dispatch with
            | false =>
              rw [checkWalk_checkearly _ _ _ _ _ hbr hsk hrd hck]
              simp
            | true =>
              rw [checkWalk_checksel _ _ _ _ _ hbr hsk hrd hck]
              dsimp only [List.map_cons]
              exact List.Sublist.cons₂ _ (ih (n + 1) src.priority)
          · rw [Bool.not_eq_true] at hck
            rw [checkWalk_checkfalse _ _ _ _ _ _ hbr hsk hrd hck]
            exact List.Sublist.cons _ (ih n cp)

theorem checkWalk_mem_of_skipped (ct : GTimeVal) (dispatch : Bool)
    (l : List (Source SourceFuncs)) (src : Source SourceFuncs) :
    ∀ n cp : Int, src ∈ l → skipped src = true →
      src ∈ (checkWalk ct dispatch l n cp).sources := by
  induction l with
  | nil =>
    intro n cp hm _
    simp at hm
  | cons hd rest ih =>
    intro n cp hm hskip
    by_cases hbr : n > 0 ∧ hd.priority > cp
    · rw [checkWalk_break _ _ _ _ _ _ hbr]
      exact hm
    · rcases List.mem_cons.mp hm with hm | hm
      · subst hm
        rw [checkWalk_skip _ _ _ _ _ _ hbr hskip]
        exact List.mem_cons_self _ _
      · by_cases hsk : skipped hd
        · rw [checkWalk_skip _ _ _ _ _ _ hbr hsk]
          exact List.mem_cons_of_mem _ (ih n cp hm hskip)
        · rw [Bool.not_eq_true] at hsk
          by_cases hrd : hd.ready
          · cases dispatch with
            | false =>
              rw [checkWalk_readyearly _ _ _ _ _ hbr hsk hrd]
              exact List.mem_cons_of_mem _ hm
            | true =>
              rw [checkWalk_readysel _ _ _ _ _ hbr hsk hrd]
              exact List.mem_cons_of_mem _ (ih (n + 1) hd.priority hm hskip)
          · rw [Bool.not_eq_true] at hrd
            by_cases hck : hd.funcs.check ct
            · cases dispatch with
              | false =>
                rw [checkWalk_checkearly _ _ _ _ _ hbr hsk hrd hck]
                exact List.mem_cons_of_mem _ hm
              | true =>
                rw [checkWalk_checksel _ _ _ _ _ hbr hsk hrd hck]
                exact List.mem_cons_of_mem _ (ih (n + 1) hd.priority hm hskip)
            · rw [Bool.not_eq_true] at hck
              rw [checkWalk_checkfalse _ _ _ _ _ _ hbr hsk hrd hck]
              exact List.mem_cons_of_mem _ (ih n cp hm hskip)

theorem checkWalk_events_from (ct : GTimeVal) (dispatch : Bool)
    (l : List (Source SourceFuncs)) :
    ∀ n cp : Int, ∀ e ∈ (checkWalk ct dispatch l n cp).events,
      ∃ x ∈ l, skipped x = false ∧ e.sourceId = x.id := by
  induction l with
  | nil =>
    intro n cp e he
    rw [checkWalk_nil] at he
    simp at he
  | cons src rest ih =>
    intro n cp e he
    by_cases hbr : n > 0 ∧ src.priority > cp
    · rw [checkWalk_break _ _ _ _ _ _ hbr] at he
      simp at he
    · by_cases hsk : skipped src
      · rw [checkWalk_skip _ _ _ _ _ _ hbr hsk] at he
        obtain ⟨x, hx, hprops⟩ := ih n cp e he
        exact ⟨x, List.mem_cons_of_mem _ hx, hprops⟩
      · rw [Bool.not_eq_true] at hsk
        by_cases hrd : src.ready
        · cases dispatch with
          | false =>
            rw [checkWalk_readyearly _ _ _ _ _ hbr hsk hrd] at he
            simp at he
          | true =>
            rw [checkWalk_readysel _ _ _ _ _ hbr hsk hrd] at he
            dsimp only at he
            obtain ⟨x, hx, hprops⟩ := ih (n + 1) src.priority e he
            exact ⟨x, List.mem_cons_of_mem _ hx, hprops⟩
        · rw [Bool.not_eq_true] at hrd
          by_cases hck : src.funcs.check ct
          · cases dispatch with
            | false =>
              rw [checkWalk_checkearly _ _ _ _ _ hbr hsk hrd hck] at he
              simp only [List.mem_singleton] at he
              subst he
              exact ⟨src, List.mem_cons_self _ _, hsk, rfl⟩
            | true =>
              rw [checkWalk_checksel _ _ _ _ _ hbr hsk hrd hck] at he
              dsimp only at he
              rcases List.mem_cons.mp he with he | he
              · subst he
                exact ⟨src, List.mem_cons_self _ _, hsk, rfl⟩
              · obtain ⟨x, hx, hprops⟩ := ih (n + 1) src.priority e he
                exact ⟨x, List.mem_cons_of_mem _ hx, hprops⟩
          · rw [Bool.not_eq_true] at hck
            rw [checkWalk_checkfalse _ _ _ _ _ _ hbr hsk hrd hck] at he
            dsimp only at he
            rcases List.mem_cons.mp he with he | he
            · subst he
              exact ⟨src, List.mem_cons_self _ _, hsk, rfl⟩
            · obtain ⟨x, hx, hprops⟩ := ih n cp e he
              exact ⟨x, List.mem_cons_of_mem _ hx, hprops⟩

theorem checkWalk_sel_from (ct : GTimeVal) (dispatch : Bool)
    (l : List (Source SourceFuncs)) :
    ∀ n cp : Int, ∀ y ∈ (checkWalk ct dispatch l n cp).selected,
      ∃ x ∈ l, skipped x = false ∧ y.id = x.id := by
  induction l with
  | nil =>
    intro n cp y hy
    rw [checkWalk_nil] at hy
    simp at hy
  | cons src rest ih =>
    intro n cp y hy
    by_cases hbr : n > 0 ∧ src.priority > cp
    · rw [checkWalk_break _ _ _ _ _ _ hbr] at hy
      simp at hy
    · by_cases hsk : skipped src
      · rw [checkWalk_skip _ _ _ _ _ _ hbr hsk] at hy
        obtain ⟨x, hx, hprops⟩ := ih n cp y hy
        exact ⟨x, List.mem_cons_of_mem _ hx, hprops⟩
      · rw [Bool.not_eq_true] at hsk
        by_cases hrd : src.ready
        · cases dispatch with
          | false =>
            rw [checkWalk_readyearly _ _ _ _ _ hbr hsk hrd] at hy
            simp at hy
          | true =>
            rw [checkWalk_readysel _ _ _ _ _ hbr hsk hrd] at hy
            dsimp only at hy
            rcases List.mem_cons.mp hy with hy | hy
            · subst hy
              exact ⟨src, List.mem_cons_self _ _, hsk, rfl⟩
            · obtain ⟨x, hx, hprops⟩ := ih (n + 1) src.priority y hy
              exact ⟨x, List.mem_cons_of_mem _ hx, hprops⟩
        · rw [Bool.not_eq_true] at hrd
          by_cases hck : src.funcs.check ct
          · cases dispatch with
            | false =>
              rw [checkWalk_checkearly _ _ _ _ _ hbr hsk hrd hck] at hy
              simp at hy
            | true =>
              rw [checkWalk_checksel _ _ _ _ _ hbr hsk hrd hck] at hy
              dsimp only at hy
              rcases List.mem_cons.mp hy with hy | hy
              · subst hy
                exact ⟨src, List.mem_cons_self _ _, hsk, rfl⟩
              · obtain ⟨x, hx, hprops⟩ := ih (n + 1) src.priority y hy
                exact ⟨x, List.mem_cons_of_mem _ hx, hprops⟩
          · rw [Bool.not_eq_true] at hck
            rw [checkWalk_checkfalse _ _ _ _ _ _ hbr hsk hrd hck] at hy
            obtain ⟨x, hx, hprops⟩ := ih n cp y hy
            exact ⟨x, List.mem_cons_of_mem _ hx, hprops⟩

theorem checkWalk_events_shape (ct : GTimeVal) (dispatch : Bool)
    (l : List (Source SourceFuncs)) :
    ∀ n cp : Int, ∀ e ∈ (checkWalk ct dispatch l n cp).events,
      ∃ i p b, e = Event.checked i p b := by
  induction l with
  | nil =>
    intro n cp e he
    rw [checkWalk_nil] at he
    simp at he
  | cons src rest ih =>
    intro n cp e he
    by_cases hbr : n > 0 ∧ src.priority > cp
    · rw [checkWalk_break _ _ _ _ _ _ hbr] at he
      simp at he
    · by_cases hsk : skipped src
      · rw [checkWalk_skip _ _ _ _ _ _ hbr hsk] at he
        exact ih n cp e he
      · rw [Bool.not_eq_true] at hsk
        by_cases hrd : src.ready
        · cases dispatch with
          | false =>
            rw [checkWalk_readyearly _ _ _ _ _ hbr hsk hrd] at he
            simp at he
          | true =>
            rw [checkWalk_readysel _ _ _ _ _ hbr hsk hrd] at he
            exact ih (n + 1) src.priority e he
        · rw [Bool.not_eq_true] at hrd
          by_cases hck : src.funcs.check ct
          · cases dispatch with
            | false =>
              rw [checkWalk_checkearly _ _ _ _ _ hbr hsk hrd hck] at he
              simp only [List.mem_singleton] at he
              exact ⟨_, _, _, he⟩
            | true =>
              rw [checkWalk_checksel _ _ _ _ _ hbr hsk hrd hck] at he
              dsimp only at he
              rcases List.mem_cons.mp he with he | he
              · exact ⟨_, _, _, he⟩
              · exact ih (n + 1) src.priority e he
          · rw [Bool.not_eq_true] at hck
            rw [checkWalk_checkfalse _ _ _ _ _ _ hbr hsk hrd hck] at he
            dsimp only at he
            rcases List.mem_cons.mp he with he | he
            · exact ⟨_, _, _, he⟩
            · exact ih n cp e he

theorem checkWalk_dispKey_none (ct : GTimeVal) (dispatch : Bool)
    (l : List (Source SourceFuncs)) :
    ∀ n cp : Int, ∀ e ∈ (checkWalk ct dispatch l n cp).events, e.dispKey = none := by
  intro n cp e he
  obtain ⟨i, p, b, rfl⟩ := checkWalk_events_shape ct dispatch l n cp e he
  rfl

theorem checkWalk_not_early (ct : GTimeVal) (l : List (Source SourceFuncs)) :
    ∀ n cp : Int, (checkWalk ct true l n cp).early = false := by
  induction l with
  | nil =>
    intro n cp
    rw [checkWalk_nil]
  | cons src rest ih =>
    intro n cp
    by_cases hbr : n > 0 ∧ src.priority > cp
    · rw [checkWalk_break _ _ _ _ _ _ hbr]
    · by_cases hsk : skipped src
      · rw [checkWalk_skip _ _ _ _ _ _ hbr hsk]
        exact ih n cp
      · rw [Bool.not_eq_true] at hsk
        by_cases hrd : src.ready
        · rw [checkWalk_readysel _ _ _ _ _ hbr hsk hrd]
          exact ih (n + 1) src.priority
        · rw [Bool.not_eq_true] at hrd
          by_cases hck : src.funcs.check ct
          · rw [checkWalk_checksel _ _ _ _ _ hbr hsk hrd hck]
            exact ih (n + 1) src.priority
          · rw [Bool.not_eq_true] at hck
            rw [checkWalk_checkfalse _ _ _ _ _ _ hbr hsk hrd hck]
            exact ih n cp

theorem checkWalk_sel_nil_of_nodispatch (ct : GTimeVal) (l : List (Source SourceFuncs)) :
    ∀ n cp : Int, (checkWalk ct false l n cp).selected = [] := by
  induction l with
  | nil =>
    intro n cp
    rw [checkWalk_nil]
  | cons src rest ih =>
    intro n cp
    by_cases hbr : n > 0 ∧ src.priority > cp
    · rw [checkWalk_break _ _ _ _ _ _ hbr]
    · by_cases hsk : skipped src
      · rw [checkWalk_skip _ _ _ _ _ _ hbr hsk]
        exact ih n cp
      · rw [Bool.not_eq_true] at hsk
        by_cases hrd : src.ready
        · rw [checkWalk_readyearly _ _ _ _ _ hbr hsk hrd]
        · rw [Bool.not_eq_true] at hrd
          by_cases hck : src.funcs.check ct
          · rw [checkWalk_checkearly _ _ _ _ _ hbr hsk hrd hck]
          · rw [Bool.not_eq_true] at hck
            rw [checkWalk_checkfalse _ _ _ _ _ _ hbr hsk hrd hck]
            exact ih n cp

/-! ## Lemmas about the dispatch loop -/

theorem g_main_dispatch_go_events_from (ct : GTimeVal) :
    ∀ pend srcs : List (Source SourceFuncs), ∀ e ∈ (g_main_dispatch_go ct pend srcs).2,
      ∃ y ∈ pend, e = Event.dispatched y.id y.priority := by
  intro pend
  induction pend with
  | nil =>
    intro srcs e he
    rw [g_main_dispatch_go_nil] at he
    simp at he
  | cons p rest ih =>
    intro srcs e he
    by_cases hv : (srcs.find? (fun x => x.id == p.id)).isSome
    · rw [g_main_dispatch_go_valid _ _ _ _ hv] at he
      dsimp only at he
      rcases List.mem_cons.mp he with he | he
      · subst he
        exact ⟨p, List.mem_cons_self _ _, rfl⟩
      · obtain ⟨y, hy, hey⟩ := ih _ e he
        exact ⟨y, List.mem_cons_of_mem _ hy, hey⟩
    · rw [Bool.not_eq_true] at hv
      rw [g_main_dispatch_go_invalid _ _ _ _ hv] at he
      obtain ⟨y, hy, hey⟩ := ih _ e he
      exact ⟨y, List.mem_cons_of_mem _ hy, hey⟩

theorem g_main_dispatch_go_keys (ct : GTimeVal) :
    ∀ pend srcs : List (Source SourceFuncs),
      (dispatchedKeys (g_main_dispatch_go ct pend srcs).2).Sublist (pend.map srcKey) := by
  intro pend
  induction pend with
  | nil =>
    intro srcs
    rw [g_main_dispatch_go_nil]
    simp [dispatchedKeys]
  | cons p rest ih =>
    intro srcs
    by_cases hv : (srcs.find? (fun x => x.id == p.id)).isSome
    · rw [g_main_dispatch_go_valid _ _ _ _ hv]
      dsimp only
      simp only [dispatchedKeys, List.filterMap_cons, List.map_cons]
      exact List.Sublist.cons₂ _ (ih _)
    · rw [Bool.not_eq_true] at hv
      rw [g_main_dispatch_go_invalid _ _ _ _ hv]
      exact List.Sublist.cons _ (ih _)

theorem g_main_dispatch_go_mem (ct : GTimeVal) :
    ∀ pend srcs : List (Source SourceFuncs), ∀ src : Source SourceFuncs,
      src ∈ srcs → (∀ y ∈ pend, y.id ≠ src.id) →
      src ∈ (g_main_dispatch_go ct pend srcs).1 := by
  intro pend
  induction pend with
  | nil =>
    intro srcs src hm _
    rw [g_main_dispatch_go_nil]
    exact hm
  | cons p rest ih =>
    intro srcs src hm hne
    have hpne : p.id ≠ src.id := hne p (List.mem_cons_self _ _)
    have hrest : ∀ y ∈ rest, y.id ≠ src.id := fun y hy => hne y (List.mem_cons_of_mem _ hy)
    by_cases hv : (srcs.find? (fun x => x.id == p.id)).isSome
    · rw [g_main_dispatch_go_valid _ _ _ _ hv]
      dsimp only
      refine ih _ src ?_ hrest
      by_cases hk : p.funcs.dispatch ct
      · simpa [hk] using hm
      · rw [Bool.not_eq_true] at hk
        rw [hk]
        simp only [Bool.false_eq_true, if_false]
        rw [List.mem_eraseP_of_neg]
        · exact hm
        · simp only [beq_iff_eq]
          exact fun h => hpne h.symm
    · rw [Bool.not_eq_true] at hv
      rw [g_main_dispatch_go_invalid _ _ _ _ hv]
      exact ih _ src hm hrest

/-! ## Branch equations for g_main_iterate -/

/-- The prepare walk as invoked by g_main_iterate. -/
def iterPW (junk : Int) (block dispatch : Bool) (ct : GTimeVal)
    (s : MainState SourceFuncs) : PrepareResult :=
  prepareWalk junk ct dispatch s.sources 0 0 (if block then -1 else 0)

/-- The check walk as invoked by g_main_iterate. -/
def iterCW (junk : Int) (block dispatch : Bool) (ct : GTimeVal)
    (s : MainState SourceFuncs) : CheckResult :=
  checkWalk ct dispatch (iterPW junk block dispatch ct s).sources 0
    (iterPW junk block dispatch ct s).currentPriority

theorem g_main_iterate_guard (junk : Int) (ct : GTimeVal) (s : MainState SourceFuncs) :
    g_main_iterate junk true false ct s = (s, false, []) := by
  simp [g_main_iterate]

theorem g_main_iterate_drain (junk : Int) (block : Bool) (ct : GTimeVal)
    (s : MainState SourceFuncs) (hp : s.pending.isEmpty = false) :
    g_main_iterate junk block true ct s =
      (⟨(g_main_dispatch_go ct s.pending s.sources).1, [], s.pollWaiting, s.wakeupWrites,
          s.nextId, s.destroyed⟩, true, (g_main_dispatch_go ct s.pending s.sources).2) := by
  simp [g_main_iterate, hp]

theorem g_main_iterate_drain_nodispatch (junk : Int) (ct : GTimeVal)
    (s : MainState SourceFuncs) (hp : s.pending.isEmpty = false) :
    g_main_iterate junk false false ct s = (s, true, []) := by
  simp [g_main_iterate, hp]

theorem g_main_iterate_prep_early (junk : Int) (ct : GTimeVal)
    (s : MainState SourceFuncs) (hp : s.pending.isEmpty = true)
    (he : (iterPW junk false false ct s).early = true) :
    g_main_iterate junk false false ct s = (s, true, (iterPW junk false false ct s).events) := by
  simp only [iterPW] at he ⊢
  simp only [if_neg (Bool.false_ne_true)] at he ⊢
  simp [g_main_iterate, hp, he]

theorem g_main_iterate_check_early (junk : Int) (ct : GTimeVal)
    (s : MainState SourceFuncs) (hp : s.pending.isEmpty = true)
    (hpe : (iterPW junk false false ct s).early = false)
    (hce : (iterCW junk false false ct s).early = true) :
    g_main_iterate junk false false ct s =
      (⟨(iterCW junk false false ct s).sources, s.pending, false, s.wakeupWrites, s.nextId,
          s.destroyed⟩, true,
        (iterPW junk false false ct s).events ++ (iterCW junk false false ct s).events) := by
  simp only [iterCW, iterPW] at hce ⊢
  simp only [iterPW] at hpe
  simp only [if_neg (Bool.false_ne_true)] at hpe hce ⊢
  simp [g_main_iterate, g_main_poll_state, hp, hpe, hce]

theorem g_main_iterate_main_sel (junk : Int) (block : Bool) (ct : GTimeVal)
    (s : MainState SourceFuncs) (hp : s.pending.isEmpty = true)
    (hsel : (iterCW junk block true ct s).selected.isEmpty = false) :
    g_main_iterate junk block true ct s =
      (⟨(g_main_dispatch_go ct (iterCW junk block true ct s).selected
            (iterCW junk block true ct s).sources).1, [], false, s.wakeupWrites, s.nextId,
          s.destroyed⟩, true,
        (iterPW junk block true ct s).events ++ (iterCW junk block true ct s).events ++
          (g_main_dispatch_go ct (iterCW junk block true ct s).selected
            (iterCW junk block true ct s).sources).2) := by
  simp only [iterCW, iterPW] at hsel ⊢
  have hpe := prepareWalk_not_early junk ct s.sources 0 0 (if block then -1 else 0)
  have hce := checkWalk_not_early ct
    (prepareWalk junk ct true s.sources 0 0 (if block then -1 else 0)).sources 0
    (prepareWalk junk ct true s.sources 0 0 (if block then -1 else 0)).currentPriority
  simp only [List.isEmpty_eq_false, ne_eq] at hsel
  simp [g_main_iterate, g_main_poll_state, hp, hpe, hce, hsel, List.reverse_reverse]

theorem g_main_iterate_main_nosel (junk : Int) (block : Bool) (ct : GTimeVal)
    (s : MainState SourceFuncs) (hp : s.pending.isEmpty = true)
    (hsel : (iterCW junk block true ct s).selected.isEmpty = true) :
    g_main_iterate junk block true ct s =
      (⟨(iterCW junk block true ct s).sources, s.pending, false, s.wakeupWrites, s.nextId,
          s.destroyed⟩, false,
        (iterPW junk block true ct s).events ++ (iterCW junk block true ct s).events) := by
  simp only [iterCW, iterPW] at hsel ⊢
  have hpe := prepareWalk_not_early junk ct s.sources 0 0 (if block then -1 else 0)
  have hce := checkWalk_not_early ct
    (prepareWalk junk ct true s.sources 0 0 (if block then -1 else 0)).sources 0
    (prepareWalk junk ct true s.sources 0 0 (if block then -1 else 0)).currentPriority
  simp only [List.isEmpty_iff] at hsel
  simp [g_main_iterate, g_main_poll_state, hp, hpe, hce, hsel]

theorem g_main_iterate_nodispatch_main (junk : Int) (ct : GTimeVal)
    (s : MainState SourceFuncs) (hp : s.pending.isEmpty = true)
    (hpe : (iterPW junk false false ct s).early = false)
    (hce : (iterCW junk false false ct s).early = false) :
    g_main_iterate junk false false ct s =
      (⟨(iterCW junk false false ct s).sources, s.pending, false, s.wakeupWrites, s.nextId,
          s.destroyed⟩, false,
        (iterPW junk false false ct s).events ++ (iterCW junk false false ct s).events) := by
  simp only [iterCW, iterPW] at hce ⊢
  simp only [iterPW] at hpe
  simp only [if_neg (Bool.false_ne_true)] at hpe hce ⊢
  have hsel := checkWalk_sel_nil_of_nodispatch ct
    (prepareWalk junk ct false s.sources 0 0 0).sources 0
    (prepareWalk junk ct false s.sources 0 0 0).currentPriority
  simp [g_main_iterate, g_main_poll_state, hp, hpe, hce, hsel]

/-! ## Transfer lemmas along the (id, priority) keys -/

theorem map_priority_of_key_eq (l1 l2 : List (Source SourceFuncs))
    (h : l1.map srcKey = l2.map srcKey) :
    l1.map (fun x => x.priority) = l2.map (fun x => x.priority) := by
  have h2 := congrArg (List.map Prod.snd) h
  simpa [List.map_map, srcKey, Function.comp] using h2

theorem map_id_of_key_eq (l1 l2 : List (Source SourceFuncs))
    (h : l1.map srcKey = l2.map srcKey) :
    l1.map (fun x => x.id) = l2.map (fun x => x.id) := by
  have h2 := congrArg (List.map Prod.fst) h
  simpa [List.map_map, srcKey, Function.comp] using h2

theorem sorted_of_key_eq (l1 l2 : List (Source SourceFuncs))
    (h : l1.map srcKey = l2.map srcKey)
    (hs : l2.Pairwise (fun a b => a.priority ≤ b.priority)) :
    l1.Pairwise (fun a b => a.priority ≤ b.priority) := by
  have hp := map_priority_of_key_eq l1 l2 h
  have h2 : (l2.map (fun x => x.priority)).Pairwise (fun a b => a ≤ b) :=
    List.pairwise_map.mpr hs
  rw [← hp] at h2
  exact List.pairwise_map.mp h2

theorem nodup_of_key_eq (l1 l2 : List (Source SourceFuncs))
    (h : l1.map srcKey = l2.map srcKey)
    (hs : (l2.map (fun x => x.id)).Nodup) :
    (l1.map (fun x => x.id)).Nodup := by
  rw [map_id_of_key_eq l1 l2 h]
  exact hs

/-! ## The ceiling property of a full dispatching iteration -/

theorem pairwise_ceilR_of_no_find (evs : List Event)
    (h : ∀ e ∈ evs, e.readyPrio = none) : evs.Pairwise ceilR := by
  induction evs with
  | nil => exact List.Pairwise.nil
  | cons a rest ih =>
    refine List.Pairwise.cons ?_ (ih fun e he => h e (List.mem_cons_of_mem _ he))
    intro b _hb P hP
    rw [h a (List.mem_cons_self _ _)] at hP
    cases hP

theorem iterate_trace_pairwise_main (junk : Int) (block : Bool) (ct : GTimeVal)
    (s : MainState SourceFuncs)
    (hsorted : s.sources.Pairwise (fun a b => a.priority ≤ b.priority)) :
    ((iterPW junk block true ct s).events ++ ((iterCW junk block true ct s).events ++
      (g_main_dispatch_go ct (iterCW junk block true ct s).selected
          (iterCW junk block true ct s).sources).2)).Pairwise ceilR := by
  have hPWp : (iterPW junk block true ct s).events.Pairwise ceilR :=
    prepareWalk_pairwise junk ct true s.sources 0 0 _ (le_refl 0)
  have hCWp : (iterCW junk block true ct s).events.Pairwise ceilR :=
    checkWalk_pairwise ct true (iterPW junk block true ct s).sources 0 _ (le_refl 0)
  have hsorted1 : (iterPW junk block true ct s).sources.Pairwise
      (fun a b => a.priority ≤ b.priority) :=
    sorted_of_key_eq _ _ (prepareWalk_key_eq junk ct true s.sources 0 0 _) hsorted
  have hDGfrom := g_main_dispatch_go_events_from ct (iterCW junk block true ct s).selected
    (iterCW junk block true ct s).sources
  have hDGp : (g_main_dispatch_go ct (iterCW junk block true ct s).selected
      (iterCW junk block true ct s).sources).2.Pairwise ceilR := by
    refine pairwise_ceilR_of_no_find _ fun e he => ?_
    obtain ⟨y, _hy, rfl⟩ := hDGfrom e he
    rfl
  have crossPW : ∀ a ∈ (iterPW junk block true ct s).events,
      ∀ b, (b ∈ (iterCW junk block true ct s).events ∨
        b ∈ (g_main_dispatch_go ct (iterCW junk block true ct s).selected
          (iterCW junk block true ct s).sources).2) → ceilR a b := by
    intro a ha b hb P hP
    obtain ⟨w, hwm, hwr, hws, hwp⟩ := prepareWalk_witness junk ct s.sources 0 0 _
      ⟨a, ha, by rw [hP]; exact Option.some_ne_none P⟩
    have hPcp : (iterPW junk block true ct s).currentPriority ≤ P :=
      prepareWalk_find_ge junk ct s.sources 0 0 _ (le_refl 0) a ha P hP
    obtain ⟨hbe, hbs⟩ := checkWalk_ready_bound ct (iterPW junk block true ct s).sources w
      (iterPW junk block true ct s).currentPriority hsorted1 hwm hwr hws
    rcases hb with hb | hb
    · calc b.priority ≤ w.priority := hbe b hb
        _ = (iterPW junk block true ct s).currentPriority := hwp
        _ ≤ P := hPcp
    · obtain ⟨y, hy, rfl⟩ := hDGfrom b hb
      calc (Event.dispatched y.id y.priority).priority = y.priority := rfl
        _ ≤ w.priority := hbs y hy
        _ = (iterPW junk block true ct s).currentPriority := hwp
        _ ≤ P := hPcp
  have crossCW : ∀ a ∈ (iterCW junk block true ct s).events,
      ∀ b ∈ (g_main_dispatch_go ct (iterCW junk block true ct s).selected
        (iterCW junk block true ct s).sources).2, ceilR a b := by
    intro a ha b hb P hP
    obtain ⟨y, hy, rfl⟩ := hDGfrom b hb
    exact checkWalk_find_sel ct (iterPW junk block true ct s).sources _ hsorted1 a ha P hP y hy
  rw [List.pairwise_append]
  refine ⟨hPWp, ?_, ?_⟩
  · rw [List.pairwise_append]
    exact ⟨hCWp, hDGp, fun a ha b hb => crossCW a ha b hb⟩
  · intro a ha b hb
    rw [List.mem_append] at hb
    exact crossPW a ha b hb

/-- C1: within one call of g_main_iterate, once some source is reported
ready at priority P (by a prepare or a check callback), every later
prepare, check or dispatch event concerns a priority at most P; in
particular a priority-1 idle source is never dispatched while a priority-0
source is always ready. -/
theorem claim_C1_priority_ceiling (junk : Int) (block dispatch : Bool) (ct : GTimeVal)
    (s : MainState SourceFuncs)
    (hsorted : s.sources.Pairwise (fun a b => a.priority ≤ b.priority)) :
    ((g_main_iterate junk block dispatch ct s).2.2).Pairwise ceilR := by
  cases dispatch with
  | true =>
    cases hpend : s.pending.isEmpty with
    | false =>
      rw [g_main_iterate_drain junk block ct s hpend]
      refine pairwise_ceilR_of_no_find _ fun e he => ?_
      obtain ⟨y, _, rfl⟩ := g_main_dispatch_go_events_from ct s.pending s.sources e he
      rfl
    | true =>
      cases hsel : (iterCW junk block true ct s).selected.isEmpty with
      | false =>
        rw [g_main_iterate_main_sel junk block ct s hpend hsel]
        have h := iterate_trace_pairwise_main junk block ct s hsorted
        simpa [List.append_assoc] using h
      | true =>
        rw [g_main_iterate_main_nosel junk block ct s hpend hsel]
        have h := iterate_trace_pairwise_main junk block ct s hsorted
        refine h.sublist ?_
        rw [← List.append_assoc]
        exact List.sublist_append_left _ _
  | false =>
    cases block with
    | true =>
      rw [g_main_iterate_guard]
      exact List.Pairwise.nil
    | false =>
      cases hpend : s.pending.isEmpty with
      | false =>
        rw [g_main_iterate_drain_nodispatch junk ct s hpend]
        exact List.Pairwise.nil
      | true =>
        cases hpe : (iterPW junk false false ct s).early with
        | true =>
          rw [g_main_iterate_prep_early junk ct s hpend hpe]
          exact prepareWalk_pairwise junk ct false s.sources 0 0 _ (le_refl 0)
        | false =>
          have hnofind : ∀ a ∈ (iterPW junk false false ct s).events, a.readyPrio = none := by
            simp only [iterPW] at hpe ⊢
            exact prepareWalk_nofind_of_nodispatch junk ct s.sources 0 0 _ hpe
          cases hce : (iterCW junk false false ct s).early with
          | true =>
            rw [g_main_iterate_check_early junk ct s hpend hpe hce]
            rw [List.pairwise_append]
            refine ⟨prepareWalk_pairwise _ _ _ _ 0 0 _ (le_refl 0),
              checkWalk_pairwise _ _ _ 0 _ (le_refl 0), ?_⟩
            intro a ha b _hb P hP
            rw [hnofind a ha] at hP
            cases hP
          | false =>
            rw [g_main_iterate_nodispatch_main junk ct s hpend hpe hce]
            rw [List.pairwise_append]
            refine ⟨prepareWalk_pairwise _ _ _ _ 0 0 _ (le_refl 0),
              checkWalk_pairwise _ _ _ 0 _ (le_refl 0), ?_⟩
            intro a ha b _hb P hP
            rw [hnofind a ha] at hP
            cases hP

/-! ## The non-reentrancy guard of a full iteration -/

theorem iterPW_key_eq (junk : Int) (block dispatch : Bool) (ct : GTimeVal)
    (s : MainState SourceFuncs) :
    (iterPW junk block dispatch ct s).sources.map srcKey = s.sources.map srcKey :=
  prepareWalk_key_eq junk ct dispatch s.sources 0 0 _

theorem iterPW_events_from (junk : Int) (block dispatch : Bool) (ct : GTimeVal)
    (s : MainState SourceFuncs) :
    ∀ e ∈ (iterPW junk block dispatch ct s).events,
      ∃ x ∈ s.sources, skipped x = false ∧ e.sourceId = x.id :=
  prepareWalk_events_from junk ct dispatch s.sources 0 0 _

theorem iterPW_mem_of_skipped (junk : Int) (block dispatch : Bool) (ct : GTimeVal)
    (s : MainState SourceFuncs) (src : Source SourceFuncs)
    (hmem : src ∈ s.sources) (hskip : skipped src = true) :
    src ∈ (iterPW junk block dispatch ct s).sources :=
  prepareWalk_mem_of_skipped junk ct dispatch s.sources src 0 0 _ hmem hskip

theorem iterCW_events_from (junk : Int) (block dispatch : Bool) (ct : GTimeVal)
    (s : MainState SourceFuncs) :
    ∀ e ∈ (iterCW junk block dispatch ct s).events,
      ∃ x ∈ (iterPW junk block dispatch ct s).sources, skipped x = false ∧
        e.sourceId = x.id :=
  checkWalk_events_from ct dispatch (iterPW junk block dispatch ct s).sources 0 _

theorem iterCW_sel_from (junk : Int) (block dispatch : Bool) (ct : GTimeVal)
    (s : MainState SourceFuncs) :
    ∀ y ∈ (iterCW junk block dispatch ct s).selected,
      ∃ x ∈ (iterPW junk block dispatch ct s).sources, skipped x = false ∧ y.id = x.id :=
  checkWalk_sel_from ct dispatch (iterPW junk block dispatch ct s).sources 0 _

theorem iterCW_mem_of_skipped (junk : Int) (block dispatch : Bool) (ct : GTimeVal)
    (s : MainState SourceFuncs) (src : Source SourceFuncs)
    (hmem : src ∈ (iterPW junk block dispatch ct s).sources) (hskip : skipped src = true) :
    src ∈ (iterCW junk block dispatch ct s).sources :=
  checkWalk_mem_of_skipped ct dispatch (iterPW junk block dispatch ct s).sources src 0 _
    hmem hskip

theorem no_id_of_nodup (l : List (Source SourceFuncs)) (src : Source SourceFuncs)
    (hnd : (l.map (fun x => x.id)).Nodup) (hmem : src ∈ l) (hskip : skipped src = true) :
    ∀ x ∈ l, skipped x = false → x.id ≠ src.id := by
  intro x hx hxs hid
  have hxe : x = src := List.inj_on_of_nodup_map hnd hx hmem hid
  rw [hxe, hskip] at hxs
  cases hxs

theorem iterate_skip_core (junk : Int) (block dispatch : Bool) (ct : GTimeVal)
    (s : MainState SourceFuncs) (src : Source SourceFuncs)
    (hmem : src ∈ s.sources) (hskip : skipped src = true)
    (hpend : s.pending = []) (hnd : (s.sources.map (fun x => x.id)).Nodup) :
    (∀ e ∈ (g_main_iterate junk block dispatch ct s).2.2, e.sourceId ≠ src.id) ∧
      src ∈ (g_main_iterate junk block dispatch ct s).1.sources := by
  have hpet : s.pending.isEmpty = true := by rw [hpend]; rfl
  have hkey0 := no_id_of_nodup s.sources src hnd hmem hskip
  cases dispatch with
  | true =>
    have hnd1 : ((iterPW junk block true ct s).sources.map (fun x => x.id)).Nodup :=
      nodup_of_key_eq _ _ (iterPW_key_eq junk block true ct s) hnd
    have hmem1 : src ∈ (iterPW junk block true ct s).sources :=
      iterPW_mem_of_skipped junk block true ct s src hmem hskip
    have hkey1 := no_id_of_nodup (iterPW junk block true ct s).sources src hnd1 hmem1 hskip
    have hmem2 : src ∈ (iterCW junk block true ct s).sources :=
      iterCW_mem_of_skipped junk block true ct s src hmem1 hskip
    have hselne : ∀ y ∈ (iterCW junk block true ct s).selected, y.id ≠ src.id := by
      intro y hy
      obtain ⟨x, hx, hxs, hyx⟩ := iterCW_sel_from junk block true ct s y hy
      rw [hyx]
      exact hkey1 x hx hxs
    have hev : ∀ e ∈ (iterPW junk block true ct s).events ++
        ((iterCW junk block true ct s).events ++
          (g_main_dispatch_go ct (iterCW junk block true ct s).selected
            (iterCW junk block true ct s).sources).2), e.sourceId ≠ src.id := by
      intro e he
      rw [List.mem_append, List.mem_append] at he
      rcases he with he | he | he
      · obtain ⟨x, hx, hxs, hex⟩ := iterPW_events_from junk block true ct s e he
        rw [hex]
        exact hkey0 x hx hxs
      · obtain ⟨x, hx, hxs, hex⟩ := iterCW_events_from junk block true ct s e he
        rw [hex]
        exact hkey1 x hx hxs
      · obtain ⟨y, hy, rfl⟩ := g_main_dispatch_go_events_from ct
          (iterCW junk block true ct s).selected (iterCW junk block true ct s).sources e he
        exact hselne y hy
    cases hsel : (iterCW junk block true ct s).selected.isEmpty with
    | false =>
      rw [g_main_iterate_main_sel junk block ct s hpet hsel]
      constructor
      · intro e he
        rw [List.append_assoc] at he
        exact hev e he
      · exact g_main_dispatch_go_mem ct (iterCW junk block true ct s).selected
          (iterCW junk block true ct s).sources src hmem2 hselne
    | true =>
      rw [g_main_iterate_main_nosel junk block ct s hpet hsel]
      constructor
      · intro e he
        refine hev e ?_
        rw [List.mem_append] at he
        rcases he with he | he
        · exact List.mem_append.mpr (Or.inl he)
        · exact List.mem_append.mpr (Or.inr (List.mem_append.mpr (Or.inl he)))
      · exact hmem2
  | false =>
    cases block with
    | true =>
      rw [g_main_iterate_guard]
      exact ⟨fun e he => absurd he (List.not_mem_nil e), hmem⟩
    | false =>
      have hnd1 : ((iterPW junk false false ct s).sources.map (fun x => x.id)).Nodup :=
        nodup_of_key_eq _ _ (iterPW_key_eq junk false false ct s) hnd
      have hmem1 : src ∈ (iterPW junk false false ct s).sources :=
        iterPW_mem_of_skipped junk false false ct s src hmem hskip
      have hkey1 := no_id_of_nodup (iterPW junk false false ct s).sources src hnd1 hmem1 hskip
      have hevp : ∀ e ∈ (iterPW junk false false ct s).events, e.sourceId ≠ src.id := by
        intro e he
        obtain ⟨x, hx, hxs, hex⟩ := iterPW_events_from junk false false ct s e he
        rw [hex]
        exact hkey0 x hx hxs
      have hevc : ∀ e ∈ (iterCW junk false false ct s).events, e.sourceId ≠ src.id := by
        intro e he
        obtain ⟨x, hx, hxs, hex⟩ := iterCW_events_from junk false false ct s e he
        rw [hex]
        exact hkey1 x hx hxs
      cases hpe : (iterPW junk false false ct s).early with
      | true =>
        rw [g_main_iterate_prep_early junk ct s hpet hpe]
        exact ⟨hevp, hmem⟩
      | false =>
        cases hce : (iterCW junk false false ct s).early with
        | true =>
          rw [g_main_iterate_check_early junk ct s hpet hpe hce]
          refine ⟨fun e he => ?_, iterCW_mem_of_skipped junk false false ct s src hmem1 hskip⟩
          rw [List.mem_append] at he
          rcases he with he | he
          · exact hevp e he
          · exact hevc e he
        | false =>
          rw [g_main_iterate_nodispatch_main junk ct s hpet hpe hce]
          refine ⟨fun e he => ?_, iterCW_mem_of_skipped junk false false ct s src hmem1 hskip⟩
          rw [List.mem_append] at he
          rcases he with he | he
          · exact hevp e he
          · exact hevc e he

/-! ## Lemmas about sorted insertion (registration order) -/

theorem g_source_compare_le_zero (a b : Source F) :
    g_source_compare a b ≤ 0 ↔ a.priority < b.priority := by
  unfold g_source_compare
  by_cases h : a.priority < b.priority
  · simp [h]
  · simp [h]

theorem regOrder_prio_le (x y : Source F) (h : regOrder x y) :
    x.priority ≤ y.priority := by
  rcases h with h | ⟨h, _⟩
  · exact le_of_lt h
  · exact le_of_eq h

theorem g_hook_insert_sorted_mem (l : List (Source F)) (s y : Source F)
    (h : y ∈ g_hook_insert_sorted l s) : y ∈ l ∨ y = s := by
  induction l with
  | nil =>
    simp only [g_hook_insert_sorted, List.mem_singleton] at h
    exact Or.inr h
  | cons x xs ih =>
    simp only [g_hook_insert_sorted] at h
    by_cases hc : g_source_compare s x ≤ 0
    · rw [if_pos hc] at h
      rcases List.mem_cons.mp h with h | h
      · exact Or.inr h
      · exact Or.inl h
    · rw [if_neg hc] at h
      rcases List.mem_cons.mp h with h | h
      · exact Or.inl (by rw [h]; exact List.mem_cons_self _ _)
      · rcases ih h with h | h
        · exact Or.inl (List.mem_cons_of_mem _ h)
        · exact Or.inr h

theorem g_hook_insert_sorted_self (l : List (Source F)) (s : Source F) :
    s ∈ g_hook_insert_sorted l s := by
  induction l with
  | nil => exact List.mem_singleton.mpr rfl
  | cons x xs ih =>
    simp only [g_hook_insert_sorted]
    by_cases hc : g_source_compare s x ≤ 0
    · rw [if_pos hc]
      exact List.mem_cons_self _ _
    · rw [if_neg hc]
      exact List.mem_cons_of_mem _ ih

theorem g_hook_insert_sorted_length (l : List (Source F)) (s : Source F) :
    (g_hook_insert_sorted l s).length = l.length + 1 := by
  induction l with
  | nil => rfl
  | cons x xs ih =>
    simp only [g_hook_insert_sorted]
    by_cases hc : g_source_compare s x ≤ 0
    · rw [if_pos hc]
      rfl
    · rw [if_neg hc]
      simp [List.length_cons, ih]

theorem g_hook_insert_sorted_eq (l : List (Source F)) (s : Source F) :
    g_hook_insert_sorted l s =
      l.takeWhile (fun x => decide (x.priority ≤ s.priority)) ++
        s :: l.dropWhile (fun x => decide (x.priority ≤ s.priority)) := by
  induction l with
  | nil => rfl
  | cons x xs ih =>
    simp only [g_hook_insert_sorted]
    by_cases hc : g_source_compare s x ≤ 0
    · have hlt : s.priority < x.priority := (g_source_compare_le_zero s x).mp hc
      have hd : decide (x.priority ≤ s.priority) = false := by
        simp [not_le_of_lt hlt]
      rw [if_pos hc, List.takeWhile_cons, List.dropWhile_cons, hd]
      simp
    · have hge : ¬s.priority < x.priority := fun hl => hc ((g_source_compare_le_zero s x).mpr hl)
      have hd : decide (x.priority ≤ s.priority) = true := by
        simp [le_of_not_lt hge]
      rw [if_neg hc, List.takeWhile_cons, List.dropWhile_cons, hd]
      simp only [if_true, List.cons_append]
      rw [ih]

theorem g_hook_insert_sorted_pairwise (l : List (Source F)) (s : Source F) (nid : Nat)
    (hs : l.Pairwise regOrder) (hid : ∀ x ∈ l, x.id < nid) (hsid : s.id = nid) :
    (g_hook_insert_sorted l s).Pairwise regOrder := by
  induction l with
  | nil => simp [g_hook_insert_sorted]
  | cons x xs ih =>
    rcases List.pairwise_cons.mp hs with ⟨hhd, htl⟩
    simp only [g_hook_insert_sorted]
    by_cases hc : g_source_compare s x ≤ 0
    · have hlt : s.priority < x.priority := (g_source_compare_le_zero s x).mp hc
      rw [if_pos hc]
      refine List.pairwise_cons.mpr ⟨?_, hs⟩
      intro y hy
      rcases List.mem_cons.mp hy with hy | hy
      · rw [hy]
        exact Or.inl hlt
      · exact Or.inl (lt_of_lt_of_le hlt (regOrder_prio_le x y (hhd y hy)))
    · have hge : x.priority ≤ s.priority := by
        by_contra hcon
        exact hc ((g_source_compare_le_zero s x).mpr (lt_of_not_le hcon))
      rw [if_neg hc]
      refine List.pairwise_cons.mpr ⟨?_, ih htl (fun z hz => hid z (List.mem_cons_of_mem _ hz))⟩
      intro y hy
      rcases g_hook_insert_sorted_mem xs s y hy with hy | hy
      · exact hhd y hy
      · subst hy
        rcases lt_or_eq_of_le hge with hg | hg
        · exact Or.inl hg
        · refine Or.inr ⟨hg.symm ▸ rfl, ?_⟩
          rw [hsid]
          exact hid x (List.mem_cons_self _ _)

/-! ## Dispatch order of a full iteration -/

theorem iterPW_dispKey_none (junk : Int) (block dispatch : Bool) (ct : GTimeVal)
    (s : MainState SourceFuncs) :
    ∀ e ∈ (iterPW junk block dispatch ct s).events, e.dispKey = none :=
  prepareWalk_dispKey_none junk ct dispatch s.sources 0 0 _

theorem iterCW_dispKey_none (junk : Int) (block dispatch : Bool) (ct : GTimeVal)
    (s : MainState SourceFuncs) :
    ∀ e ∈ (iterCW junk block dispatch ct s).events, e.dispKey = none :=
  checkWalk_dispKey_none ct dispatch (iterPW junk block dispatch ct s).sources 0 _

theorem iterCW_sel_key_sublist (junk : Int) (block dispatch : Bool) (ct : GTimeVal)
    (s : MainState SourceFuncs) :
    ((iterCW junk block dispatch ct s).selected.map srcKey).Sublist
      (s.sources.map srcKey) := by
  have h1 := checkWalk_sel_key_sublist ct dispatch (iterPW junk block dispatch ct s).sources 0
    (iterPW junk block dispatch ct s).currentPriority
  have h2 := iterPW_key_eq junk block dispatch ct s
  rw [h2] at h1
  exact h1

theorem iterate_dispatched_keys_sublist (junk : Int) (block dispatch : Bool) (ct : GTimeVal)
    (s : MainState SourceFuncs) (hpend : s.pending = []) :
    (dispatchedKeys (g_main_iterate junk block dispatch ct s).2.2).Sublist
      (s.sources.map srcKey) := by
  have hpet : s.pending.isEmpty = true := by rw [hpend]; rfl
  cases dispatch with
  | true =>
    cases hsel : (iterCW junk block true ct s).selected.isEmpty with
    | false =>
      rw [g_main_iterate_main_sel junk block ct s hpet hsel]
      have hnil1 : dispatchedKeys (iterPW junk block true ct s).events = [] :=
        List.filterMap_eq_nil_iff.mpr (iterPW_dispKey_none junk block true ct s)
      have hnil2 : dispatchedKeys (iterCW junk block true ct s).events = [] :=
        List.filterMap_eq_nil_iff.mpr (iterCW_dispKey_none junk block true ct s)
      have hgo := g_main_dispatch_go_keys ct (iterCW junk block true ct s).selected
        (iterCW junk block true ct s).sources
      simp only [dispatchedKeys, List.filterMap_append] at hnil1 hnil2 ⊢
      rw [hnil1, hnil2]
      simp only [List.nil_append]
      exact hgo.trans (iterCW_sel_key_sublist junk block true ct s)
    | true =>
      rw [g_main_iterate_main_nosel junk block ct s hpet hsel]
      have hnil1 : dispatchedKeys (iterPW junk block true ct s).events = [] :=
        List.filterMap_eq_nil_iff.mpr (iterPW_dispKey_none junk block true ct s)
      have hnil2 : dispatchedKeys (iterCW junk block true ct s).events = [] :=
        List.filterMap_eq_nil_iff.mpr (iterCW_dispKey_none junk block true ct s)
      simp only [dispatchedKeys, List.filterMap_append] at hnil1 hnil2 ⊢
      rw [hnil1, hnil2]
      simp
  | false =>
    cases block with
    | true =>
      rw [g_main_iterate_guard]
      simp [dispatchedKeys]
    | false =>
      cases hpe : (iterPW junk false false ct s).early with
      | true =>
        rw [g_main_iterate_prep_early junk ct s hpet hpe]
        dsimp only [dispatchedKeys]
        rw [List.filterMap_eq_nil_iff.mpr (iterPW_dispKey_none junk false false ct s)]
        exact List.nil_sublist _
      | false =>
        have hnil1 : dispatchedKeys (iterPW junk false false ct s).events = [] :=
          List.filterMap_eq_nil_iff.mpr (iterPW_dispKey_none junk false false ct s)
        have hnil2 : dispatchedKeys (iterCW junk false false ct s).events = [] :=
          List.filterMap_eq_nil_iff.mpr (iterCW_dispKey_none junk false false ct s)
        cases hce : (iterCW junk false false ct s).early with
        | true =>
          rw [g_main_iterate_check_early junk ct s hpet hpe hce]
          simp only [dispatchedKeys, List.filterMap_append] at hnil1 hnil2 ⊢
          rw [hnil1, hnil2]
          exact List.nil_sublist _
        | false =>
          rw [g_main_iterate_nodispatch_main junk ct s hpet hpe hce]
          simp only [dispatchedKeys, List.filterMap_append] at hnil1 hnil2 ⊢
          rw [hnil1, hnil2]
          exact List.nil_sublist _

/-! ## Arithmetic helpers for the timeout claims -/

theorem tdiv_thousand_nonpos (x : Int) (h : x ≤ 0) : Int.tdiv x 1000 ≤ 0 := by
  have h2 : 0 ≤ -x := by omega
  have h3 := Int.tdiv_nonneg h2 (by norm_num : (0:Int) ≤ 1000)
  rw [Int.neg_tdiv] at h3
  omega

theorem tdiv_thousand_le (x : Int) (h : x ≤ 999999) : Int.tdiv x 1000 ≤ 999 := by
  rcases le_or_lt x 0 with hx | hx
  · have := tdiv_thousand_nonpos x hx
    omega
  · rw [Int.tdiv_eq_ediv (le_of_lt hx) (by norm_num : (0:Int) ≤ 1000)]
    omega

/-! ## Claims C4, C5, C6: built-in source callbacks -/

/-- C4 (code bug): the claim says idle prepare returns true and writes 0
into the caller's timeout slot.  The code (gmain.c line 816) assigns 0 to
its own pointer parameter rather than storing through it, so the caller's
slot keeps its previous value: with the slot previously holding 55,
g_idle_prepare returns true and the slot still holds 55, not 0.  Spec
section 9 itself calls this out as the idle-source bug. -/
theorem claim_C4_idle_prepare_slot :
    g_idle_prepare ⟨0, 0⟩ 55 = (true, 55) ∧
      ∀ ct slot, g_idle_prepare ct slot = (true, slot) :=
  ⟨rfl, fun _ _ => rfl⟩

/-- Counterexample to C5 as stated: at the normalized current time (0, 0)
and interval 2000 ms, both the registration expiration and the dispatch
re-arm produce a microsecond field of exactly 1000000, which is not in
[0, 10^6) - the code performs only one conditional carry. -/
theorem claim_C5_normalization_cx :
    (0:Int) ≤ (0:Int) ∧ (0:Int) < 1000000 ∧
    ¬((g_timeout_data_new ⟨0, 0⟩ 2000).expiration.tv_usec < 1000000) ∧
    ¬((g_timeout_dispatch ⟨⟨0, 0⟩, 2000⟩ ⟨0, 0⟩ true).1.expiration.tv_usec < 1000000) := by
  refine ⟨le_refl 0, by norm_num, ?_, ?_⟩ <;> decide

/-- C5 (amended): for a normalized current time and a nonnegative interval
small enough that one carry suffices (current microseconds plus
interval*1000 below 2*10^6), the expiration computed at registration by
g_timeout_add_full and by the re-arm in g_timeout_dispatch (callback
returning true) equals current time plus interval milliseconds and is
again normalized. -/
theorem claim_C5_expiration_normalized (current : GTimeVal) (interval : Int)
    (d : GTimeoutData) (h0 : 0 ≤ current.tv_usec) (h1 : current.tv_usec < 1000000)
    (h2 : 0 ≤ interval) (h3 : current.tv_usec + interval * 1000 < 2000000)
    (hd : d.interval = interval) :
    ((g_timeout_data_new current interval).expiration.toMicros =
        current.toMicros + interval * 1000 ∧
      0 ≤ (g_timeout_data_new current interval).expiration.tv_usec ∧
      (g_timeout_data_new current interval).expiration.tv_usec < 1000000) ∧
    ((g_timeout_dispatch d current true).1.expiration.toMicros =
        current.toMicros + interval * 1000 ∧
      0 ≤ (g_timeout_dispatch d current true).1.expiration.tv_usec ∧
      (g_timeout_dispatch d current true).1.expiration.tv_usec < 1000000) := by
  subst hd
  unfold g_timeout_data_new g_timeout_dispatch timeoutExpiration GTimeVal.toMicros
  by_cases hc : current.tv_usec + d.interval * 1000 ≥ 1000000 <;>
    simp only [hc, if_true, if_false, reduceIte] <;> constructor <;> constructor <;>
    try constructor
  all_goals omega

/-- Witness for C5: current time (5, 999000), interval 1 ms: expiration is
(6, 0), normalized, and equal to current plus one millisecond. -/
theorem claim_C5_expiration_normalized_witness :
    ((0:Int) ≤ 999000 ∧ (999000:Int) < 1000000 ∧ (0:Int) ≤ 1 ∧
      (999000:Int) + 1 * 1000 < 2000000) ∧
    ((g_timeout_data_new ⟨5, 999000⟩ 1).expiration.toMicros =
        GTimeVal.toMicros ⟨5, 999000⟩ + 1 * 1000 ∧
      0 ≤ (g_timeout_data_new ⟨5, 999000⟩ 1).expiration.tv_usec ∧
      (g_timeout_data_new ⟨5, 999000⟩ 1).expiration.tv_usec < 1000000) :=
  ⟨⟨by norm_num, by norm_num, by norm_num, by norm_num⟩,
    (claim_C5_expiration_normalized ⟨5, 999000⟩ 1 ⟨⟨0, 0⟩, 1⟩ (by norm_num) (by norm_num)
      (by norm_num) (by norm_num) rfl).1⟩

/-- Counterexample to C6 as stated: with expiration (0, 500) and current
time (0, 0) - both normalized - prepare reports ready (the 500 µs remainder
truncates to 0 ms) while check reports not ready, so the two do not agree. -/
theorem claim_C6_agreement_cx :
    (g_timeout_prepare ⟨⟨0, 500⟩, 1⟩ ⟨0, 0⟩).1 = true ∧
      g_timeout_check ⟨⟨0, 500⟩, 1⟩ ⟨0, 0⟩ = false := by
  constructor <;> decide

/-- C6 (amended): timeout prepare computes msec as the millisecond distance
(truncated toward zero), writes max(msec, 0) into the timeout slot and
returns true iff msec is nonpositive; check returns true iff current is at
least the expiration under the second-then-microsecond comparison; and for
normalized microsecond fields the agreement holds in one direction only:
check ready implies prepare ready (prepare can additionally report ready
when the expiration is less than one millisecond in the future). -/
theorem claim_C6_timeout_prepare_check (data : GTimeoutData) (ct : GTimeVal) :
    ((g_timeout_prepare data ct).1 = true ↔
      (data.expiration.tv_sec - ct.tv_sec) * 1000 +
        Int.tdiv (data.expiration.tv_usec - ct.tv_usec) 1000 ≤ 0) ∧
    ((g_timeout_prepare data ct).2 =
      max ((data.expiration.tv_sec - ct.tv_sec) * 1000 +
        Int.tdiv (data.expiration.tv_usec - ct.tv_usec) 1000) 0) ∧
    (g_timeout_check data ct = true ↔
      (data.expiration.tv_sec < ct.tv_sec ∨
        (data.expiration.tv_sec = ct.tv_sec ∧
          data.expiration.tv_usec ≤ ct.tv_usec))) ∧
    (0 ≤ data.expiration.tv_usec → data.expiration.tv_usec < 1000000 →
      0 ≤ ct.tv_usec → ct.tv_usec < 1000000 →
      g_timeout_check data ct = true → (g_timeout_prepare data ct).1 = true) := by
  refine ⟨by simp [g_timeout_prepare], ?_, by simp [g_timeout_check], ?_⟩
  · unfold g_timeout_prepare
    dsimp only
    by_cases h : (data.expiration.tv_sec - ct.tv_sec) * 1000 +
        Int.tdiv (data.expiration.tv_usec - ct.tv_usec) 1000 ≤ 0
    · rw [if_pos h, max_eq_right h]
    · rw [if_neg h, max_eq_left (le_of_lt (lt_of_not_le h))]
  · intro he1 he2 hc1 hc2 hck
    rw [g_timeout_check, decide_eq_true_iff] at hck
    rw [g_timeout_prepare]
    dsimp only
    rw [decide_eq_true_iff]
    rcases hck with hlt | ⟨heq, hle⟩
    · have hb1 : data.expiration.tv_sec - ct.tv_sec ≤ -1 := by omega
      have hb2 : Int.tdiv (data.expiration.tv_usec - ct.tv_usec) 1000 ≤ 999 :=
        tdiv_thousand_le _ (by omega)
      have hb3 : (data.expiration.tv_sec - ct.tv_sec) * 1000 ≤ -1000 := by
        have := mul_le_mul_of_nonneg_right hb1 (by norm_num : (0:Int) ≤ 1000)
        omega
      omega
    · have hz : data.expiration.tv_sec - ct.tv_sec = 0 := by omega
      have hb2 : Int.tdiv (data.expiration.tv_usec - ct.tv_usec) 1000 ≤ 0 :=
        tdiv_thousand_nonpos _ (by omega)
      rw [hz]
      omega

/-- Witness for C6: expiration (0, 0), current time (1, 0): check reports
ready and, by the theorem, prepare does as well. -/
theorem claim_C6_timeout_prepare_check_witness :
    g_timeout_check ⟨⟨0, 0⟩, 5⟩ ⟨1, 0⟩ = true ∧
      (g_timeout_prepare ⟨⟨0, 0⟩, 5⟩ ⟨1, 0⟩).1 = true :=
  ⟨by decide, (claim_C6_timeout_prepare_check ⟨⟨0, 0⟩, 5⟩ ⟨1, 0⟩).2.2.2
    (by norm_num) (by norm_num) (by norm_num) (by norm_num) (by decide)⟩

/-! ## Claims C7, C8, C9: drain, wake-up, invalid arguments -/

/-- A source used to build concrete witness states: an idle source whose
callback keeps the source. -/
def wsIdle0 : Source SourceFuncs :=
  ⟨1, 0, false, false, false, idleFuncs true⟩

/-- A second idle source at priority 1. -/
def wsIdle1 : Source SourceFuncs :=
  ⟨2, 1, false, false, false, idleFuncs true⟩

/-- A state whose pending-dispatch queue is non-empty (an interrupted
iteration left wsIdle0 on it). -/
def wsPendingState : MainState SourceFuncs :=
  ⟨[wsIdle0], [wsIdle0], false, 0, 3, []⟩

/-- Counterexample to C7 as stated: with a non-empty pending queue,
g_main_iterate called with block true and dispatch false returns false,
not true - the g_return_val_if_fail guard rejects that argument
combination before looking at the queue. -/
theorem claim_C7_drain_cx :
    wsPendingState.pending ≠ [] ∧
      (g_main_iterate 0 true false ⟨0, 0⟩ wsPendingState).2.1 = false := by
  constructor
  · simp [wsPendingState]
  · rfl

/-- C7 (amended): when the argument guard passes (block implies dispatch)
and the pending-dispatch queue left by a prior interrupted iteration is
non-empty, g_main_iterate returns true without starting a new prepare
phase (its trace holds dispatch events only); with dispatch true it first
runs the dispatch step on that queue, and with dispatch false it
dispatches nothing and leaves the state unchanged.  (With block true and
dispatch false the guard fails and the call returns false untouched.) -/
theorem claim_C7_reentrancy_drain (junk : Int) (block dispatch : Bool) (ct : GTimeVal)
    (s : MainState SourceFuncs) (hp : s.pending ≠ [])
    (hbd : block = true → dispatch = true) :
    (g_main_iterate junk block dispatch ct s).2.1 = true ∧
    (∀ e ∈ (g_main_iterate junk block dispatch ct s).2.2, ∃ i p, e = Event.dispatched i p) ∧
    (dispatch = true →
      (g_main_iterate junk block dispatch ct s).1 =
        ⟨(g_main_dispatch_go ct s.pending s.sources).1, [], s.pollWaiting, s.wakeupWrites,
          s.nextId, s.destroyed⟩ ∧
      (g_main_iterate junk block dispatch ct s).2.2 =
        (g_main_dispatch_go ct s.pending s.sources).2) ∧
    (dispatch = false →
      (g_main_iterate junk block dispatch ct s).1 = s ∧
      (g_main_iterate junk block dispatch ct s).2.2 = []) := by
  have hpe : s.pending.isEmpty = false := by
    simp [List.isEmpty_iff, hp]
  cases dispatch with
  | true =>
    rw [g_main_iterate_drain junk block ct s hpe]
    refine ⟨rfl, ?_, fun _ => ⟨rfl, rfl⟩, fun hcontra => by cases hcontra⟩
    intro e he
    obtain ⟨y, _, rfl⟩ := g_main_dispatch_go_events_from ct s.pending s.sources e he
    exact ⟨y.id, y.priority, rfl⟩
  | false =>
    cases block with
    | true => exact absurd (hbd rfl) (by simp)
    | false =>
      rw [g_main_iterate_drain_nodispatch junk ct s hpe]
      refine ⟨rfl, fun e he => absurd he (List.not_mem_nil e), ?_, fun _ => ⟨rfl, rfl⟩⟩
      intro hcontra
      cases hcontra

/-- Witness for C7: the concrete pending state, block false, dispatch
true: the iteration returns true and its trace is the dispatch of the
queue. -/
theorem claim_C7_reentrancy_drain_witness :
    wsPendingState.pending ≠ [] ∧
      (g_main_iterate 0 false true ⟨0, 0⟩ wsPendingState).2.1 = true :=
  ⟨by simp [wsPendingState],
    (claim_C7_reentrancy_drain 0 false true ⟨0, 0⟩ wsPendingState
      (by simp [wsPendingState]) (fun h => by cases h)).1⟩

/-- C8: g_source_add leaves poll_waiting false on return in every case -
clearing it when it was set - and writes one byte to the wake-up pipe
exactly when poll_waiting was set, leaving the write count unchanged
otherwise. -/
theorem claim_C8_wakeup_on_add (F : Type) (prio : Int) (cr : Bool) (funcs : F)
    (s : MainState F) :
    ((g_source_add prio cr funcs s).1.pollWaiting = false) ∧
    ((g_source_add prio cr funcs s).1.wakeupWrites =
      if s.pollWaiting then s.wakeupWrites + 1 else s.wakeupWrites) := by
  by_cases h : s.pollWaiting <;> simp [g_source_add, h]

/-- Counterexample to C9 as stated: g_source_add performs no validation of
the callback-table pointer; called with a null GSourceFuncs pointer on the
empty state it still registers a source, so the registry does change. -/
theorem claim_C9_null_funcs_cx :
    (g_source_add 0 false (none : Option SourceFuncs)
      (mainStateEmpty (Option SourceFuncs))).1.sources ≠ [] := by
  simp [g_source_add, mainStateEmpty, g_hook_insert_sorted]

/-- C9 (amended): g_source_add registers unconditionally - the registry
always grows by one, whatever the callback-table pointer - while
g_source_remove with an id bound to no source (in particular id 0, since
hook ids start at 1) leaves the whole state unchanged and invokes no
destroy hook. -/
theorem claim_C9_invalid_args (F : Type) (prio : Int) (cr : Bool) (funcs : F)
    (tag : Nat) (s : MainState F) (hno : ∀ x ∈ s.sources, x.id ≠ tag) :
    ((g_source_add prio cr funcs s).1.sources.length = s.sources.length + 1) ∧
    g_source_remove tag s = s := by
  constructor
  · by_cases h : s.pollWaiting <;> simp [g_source_add, h, g_hook_insert_sorted_length]
  · have hfind : s.sources.find? (fun x => x.id == tag) = none := by
      rw [List.find?_eq_none]
      intro x hx
      simp [hno x hx]
    simp [g_source_remove, hfind]

/-- Witness for C9: one source with id 1 registered, removal with id 0:
the registry gains a member on add, and remove with the unbound id 0
changes nothing. -/
theorem claim_C9_invalid_args_witness :
    (∀ x ∈ (⟨[⟨1, 0, false, false, false, ()⟩], [], false, 0, 2, []⟩ :
        MainState Unit).sources, x.id ≠ 0) ∧
    ((g_source_add 5 false ()
        (⟨[⟨1, 0, false, false, false, ()⟩], [], false, 0, 2, []⟩ :
          MainState Unit)).1.sources.length =
      (⟨[⟨1, 0, false, false, false, ()⟩], [], false, 0, 2, []⟩ :
        MainState Unit).sources.length + 1) ∧
    g_source_remove 0 (⟨[⟨1, 0, false, false, false, ()⟩], [], false, 0, 2, []⟩ :
      MainState Unit) =
      ⟨[⟨1, 0, false, false, false, ()⟩], [], false, 0, 2, []⟩ := by
  have hno : ∀ x ∈ (⟨[⟨1, 0, false, false, false, ()⟩], [], false, 0, 2, []⟩ :
      MainState Unit).sources, x.id ≠ 0 := by
    intro x hx
    rw [List.mem_singleton] at hx
    subst hx
    decide
  have h := claim_C9_invalid_args Unit 5 false () 0
    ⟨[⟨1, 0, false, false, false, ()⟩], [], false, 0, 2, []⟩ hno
  exact ⟨hno, h.1, h.2⟩

/-! ## Claim C10: built-in sources are not recursive -/

/-- C10: every source registered through g_timeout_add_full, g_timeout_add,
g_idle_add_full and g_idle_add is created with can_recurse FALSE (the
registered source record carries canRecurse false), and consequently a
nested iteration started while such a source is in a call never touches it:
no prepare, check or dispatch event of that iteration carries its id. -/
theorem claim_C10_builtin_no_recurse :
    (∀ (prio interval : Int) (cb : Bool) (now : GTimeVal) (s : MainState SourceFuncs),
      (⟨s.nextId, prio, false, false, false,
          timeoutFuncs (g_timeout_data_new now interval) cb⟩ : Source SourceFuncs) ∈
        (g_timeout_add_full prio interval cb now s).1.sources) ∧
    (∀ (interval : Int) (cb : Bool) (now : GTimeVal) (s : MainState SourceFuncs),
      (⟨s.nextId, 0, false, false, false,
          timeoutFuncs (g_timeout_data_new now interval) cb⟩ : Source SourceFuncs) ∈
        (g_timeout_add interval cb now s).1.sources) ∧
    (∀ (prio : Int) (cb : Bool) (s : MainState SourceFuncs),
      (⟨s.nextId, prio, false, false, false, idleFuncs cb⟩ : Source SourceFuncs) ∈
        (g_idle_add_full prio cb s).1.sources) ∧
    (∀ (cb : Bool) (s : MainState SourceFuncs),
      (⟨s.nextId, 0, false, false, false, idleFuncs cb⟩ : Source SourceFuncs) ∈
        (g_idle_add cb s).1.sources) ∧
    (∀ (junk : Int) (block dispatch : Bool) (ct : GTimeVal) (s : MainState SourceFuncs)
      (src : Source SourceFuncs), src ∈ s.sources → src.canRecurse = false →
        src.inCall = true → s.pending = [] → (s.sources.map (fun x => x.id)).Nodup →
        ∀ e ∈ (g_main_iterate junk block dispatch ct s).2.2, e.sourceId ≠ src.id) := by
  refine ⟨?_, ?_, ?_, ?_, ?_⟩
  · intro prio interval cb now s
    unfold g_timeout_add_full g_source_add
    by_cases h : s.pollWaiting <;> simp only [h, if_true, if_false, reduceIte] <;>
      exact g_hook_insert_sorted_self _ _
  · intro interval cb now s
    unfold g_timeout_add g_timeout_add_full g_source_add
    by_cases h : s.pollWaiting <;> simp only [h, if_true, if_false, reduceIte] <;>
      exact g_hook_insert_sorted_self _ _
  · intro prio cb s
    unfold g_idle_add_full g_source_add
    by_cases h : s.pollWaiting <;> simp only [h, if_true, if_false, reduceIte] <;>
      exact g_hook_insert_sorted_self _ _
  · intro cb s
    unfold g_idle_add g_idle_add_full g_source_add
    by_cases h : s.pollWaiting <;> simp only [h, if_true, if_false, reduceIte] <;>
      exact g_hook_insert_sorted_self _ _
  · intro junk block dispatch ct s src hmem hcr hic hpend hnd
    have hskip : skipped src = true := by
      simp [skipped, hcr, hic]
    exact (iterate_skip_core junk block dispatch ct s src hmem hskip hpend hnd).1

/-- Witness for C10: an idle source registered on the empty state carries
canRecurse false, and in a state where that source is marked in-call a
dispatching iteration produces no event with its id. -/
theorem claim_C10_builtin_no_recurse_witness :
    ((⟨1, 0, false, false, false, idleFuncs true⟩ : Source SourceFuncs) ∈
      (g_idle_add true (mainStateEmpty SourceFuncs)).1.sources) ∧
    (∀ e ∈ (g_main_iterate 0 false true ⟨0, 0⟩
        (⟨[⟨1, 0, true, false, false, idleFuncs true⟩], [], false, 0, 2, []⟩ :
          MainState SourceFuncs)).2.2,
      e.sourceId ≠ 1) := by
  constructor
  · exact claim_C10_builtin_no_recurse.2.2.2.1 true (mainStateEmpty SourceFuncs)
  · intro e he
    exact claim_C10_builtin_no_recurse.2.2.2.2 0 false true ⟨0, 0⟩
      ⟨[⟨1, 0, true, false, false, idleFuncs true⟩], [], false, 0, 2, []⟩
      ⟨1, 0, true, false, false, idleFuncs true⟩ (List.mem_singleton.mpr rfl) rfl rfl rfl
      (by simp) e he

/-! ## Claims C1, C2, C3: the dispatch engine -/

/-- The two-idle-source state used by the engine witnesses: a priority-0
idle source (always ready) before a priority-1 idle source. -/
def wsStateA : MainState SourceFuncs :=
  ⟨[wsIdle0, wsIdle1], [], false, 0, 3, []⟩

/-- Witness for C1: the two-idle-source state is priority-sorted and the
trace of one blocking dispatching iteration satisfies the ceiling
relation pairwise (the priority-1 idle source is not dispatched). -/
theorem claim_C1_priority_ceiling_witness :
    wsStateA.sources.Pairwise (fun a b => a.priority ≤ b.priority) ∧
      ((g_main_iterate 7 true true ⟨0, 0⟩ wsStateA).2.2).Pairwise ceilR := by
  have hs : wsStateA.sources.Pairwise (fun a b => a.priority ≤ b.priority) := by
    norm_num [wsStateA, wsIdle0, wsIdle1, List.pairwise_cons]
  exact ⟨hs, claim_C1_priority_ceiling 7 true true ⟨0, 0⟩ wsStateA hs⟩

/-- C2: stable FIFO within priority.  First part: on a registry in
registration order (ascending priority, ascending id within one priority,
all ids below the id counter), g_source_add preserves that order, keeps
all ids below the new counter, and places the new source exactly after
every existing source of smaller or equal priority.  Second part: in one
iteration the dispatched (id, priority) pairs form a sublist of the
registry, hence run in ascending priority and, within one priority, in
registration order. -/
theorem claim_C2_fifo_order :
    (∀ (F : Type) (prio : Int) (cr : Bool) (funcs : F) (s : MainState F),
      s.sources.Pairwise regOrder → (∀ x ∈ s.sources, x.id < s.nextId) →
        ((g_source_add prio cr funcs s).1.sources.Pairwise regOrder ∧
          (∀ x ∈ (g_source_add prio cr funcs s).1.sources,
            x.id < (g_source_add prio cr funcs s).1.nextId) ∧
          (g_source_add prio cr funcs s).1.sources =
            s.sources.takeWhile (fun x => decide (x.priority ≤ prio)) ++
              (⟨s.nextId, prio, false, cr, false, funcs⟩ : Source F) ::
                s.sources.dropWhile (fun x => decide (x.priority ≤ prio)))) ∧
    (∀ (junk : Int) (block dispatch : Bool) (ct : GTimeVal) (t : MainState SourceFuncs),
      t.sources.Pairwise regOrder → t.pending = [] →
        ((dispatchedKeys (g_main_iterate junk block dispatch ct t).2.2).Sublist
            (t.sources.map srcKey) ∧
          (dispatchedKeys (g_main_iterate junk block dispatch ct t).2.2).Pairwise
            keyOrder)) := by
  constructor
  · intro F prio cr funcs s hreg hid
    have hsrcs : (g_source_add prio cr funcs s).1.sources =
        g_hook_insert_sorted s.sources ⟨s.nextId, prio, false, cr, false, funcs⟩ := by
      by_cases h : s.pollWaiting <;> simp [g_source_add, h]
    have hnid : (g_source_add prio cr funcs s).1.nextId = s.nextId + 1 := by
      by_cases h : s.pollWaiting <;> simp [g_source_add, h]
    refine ⟨?_, ?_, ?_⟩
    · rw [hsrcs]
      exact g_hook_insert_sorted_pairwise s.sources _ s.nextId hreg hid rfl
    · rw [hsrcs, hnid]
      intro x hx
      rcases g_hook_insert_sorted_mem s.sources _ x hx with hx | hx
      · exact Nat.lt_succ_of_lt (hid x hx)
      · rw [hx]
        exact Nat.lt_succ_self _
    · rw [hsrcs]
      exact g_hook_insert_sorted_eq s.sources _
  · intro junk block dispatch ct t hreg hpend
    have hsub := iterate_dispatched_keys_sublist junk block dispatch ct t hpend
    have hk : (t.sources.map srcKey).Pairwise keyOrder :=
      List.Pairwise.map srcKey (fun a b h => h) hreg
    exact ⟨hsub, hk.sublist hsub⟩

/-- Witness for C2: adding a second priority-5 source after an existing one
keeps registration order, and one dispatching iteration on the sorted
two-idle-source state dispatches in registry order. -/
theorem claim_C2_fifo_order_witness :
    ((⟨[⟨1, 5, false, false, false, ()⟩], [], false, 0, 2, []⟩ :
        MainState Unit).sources.Pairwise regOrder ∧
      (∀ x ∈ (⟨[⟨1, 5, false, false, false, ()⟩], [], false, 0, 2, []⟩ :
        MainState Unit).sources, x.id < 2) ∧
      wsStateA.sources.Pairwise regOrder ∧ wsStateA.pending = []) ∧
    ((g_source_add 5 false ()
        (⟨[⟨1, 5, false, false, false, ()⟩], [], false, 0, 2, []⟩ :
          MainState Unit)).1.sources.Pairwise regOrder) ∧
    (dispatchedKeys (g_main_iterate 7 false true ⟨0, 0⟩ wsStateA).2.2).Pairwise
      keyOrder := by
  have h1 : (⟨[⟨1, 5, false, false, false, ()⟩], [], false, 0, 2, []⟩ :
      MainState Unit).sources.Pairwise regOrder := by
    simp [List.pairwise_cons]
  have h2 : ∀ x ∈ (⟨[⟨1, 5, false, false, false, ()⟩], [], false, 0, 2, []⟩ :
      MainState Unit).sources, x.id < 2 := by
    intro x hx
    rw [List.mem_singleton] at hx
    subst hx
    decide
  have h3 : wsStateA.sources.Pairwise regOrder := by
    norm_num [wsStateA, wsIdle0, wsIdle1, List.pairwise_cons, regOrder]
  have h4 : wsStateA.pending = [] := rfl
  exact ⟨⟨h1, h2, h3, h4⟩,
    (claim_C2_fifo_order.1 Unit 5 false ()
      ⟨[⟨1, 5, false, false, false, ()⟩], [], false, 0, 2, []⟩ h1 h2).1,
    (claim_C2_fifo_order.2 7 false true ⟨0, 0⟩ wsStateA h3 h4).2⟩

/-- C3: a source whose IN_CALL flag is set and whose CAN_RECURSE flag is
clear is skipped by both walks of g_main_iterate - no prepare, check or
dispatch event of the call carries its id, so it is never selected for
dispatch in that iteration - and it stays in the source registry. -/
theorem claim_C3_in_call_guard (junk : Int) (block dispatch : Bool) (ct : GTimeVal)
    (s : MainState SourceFuncs) (src : Source SourceFuncs)
    (hmem : src ∈ s.sources) (hic : src.inCall = true) (hcr : src.canRecurse = false)
    (hpend : s.pending = []) (hnd : (s.sources.map (fun x => x.id)).Nodup) :
    (∀ e ∈ (g_main_iterate junk block dispatch ct s).2.2, e.sourceId ≠ src.id) ∧
      src ∈ (g_main_iterate junk block dispatch ct s).1.sources :=
  iterate_skip_core junk block dispatch ct s src hmem (by simp [skipped, hic, hcr])
    hpend hnd

/-- The state for the C3 witness: a non-recursive priority-0 idle source
currently in a call, next to the priority-1 idle source. -/
def wsBusyState : MainState SourceFuncs :=
  ⟨[⟨1, 0, true, false, false, idleFuncs true⟩, wsIdle1], [], false, 0, 3, []⟩

/-- Witness for C3: in the busy state, one blocking dispatching iteration
produces no event with the in-call source's id and keeps it in the
registry. -/
theorem claim_C3_in_call_guard_witness :
    ((⟨1, 0, true, false, false, idleFuncs true⟩ : Source SourceFuncs) ∈
        wsBusyState.sources ∧
      wsBusyState.pending = [] ∧
      (wsBusyState.sources.map (fun x => x.id)).Nodup) ∧
    ((∀ e ∈ (g_main_iterate 7 true true ⟨0, 0⟩ wsBusyState).2.2, e.sourceId ≠ 1) ∧
      (⟨1, 0, true, false, false, idleFuncs true⟩ : Source SourceFuncs) ∈
        (g_main_iterate 7 true true ⟨0, 0⟩ wsBusyState).1.sources) := by
  have hmem : (⟨1, 0, true, false, false, idleFuncs true⟩ : Source SourceFuncs) ∈
      wsBusyState.sources := List.mem_cons_self _ _
  have hpend : wsBusyState.pending = [] := rfl
  have hnd : (wsBusyState.sources.map (fun x => x.id)).Nodup := by
    simp [wsBusyState, wsIdle1]
  exact ⟨⟨hmem, hpend, hnd⟩,
    claim_C3_in_call_guard 7 true true ⟨0, 0⟩ wsBusyState _ hmem rfl rfl hpend hnd⟩
